import Mathlib

/-!
Shallow embedding of the link/unlink core of the fidel-challenge repository
(NestJS + DynamoDB offers API) and proofs about it.

The embedding follows `src/offers/offers.service.ts` (OffersService:
`linkToLocation`, `unlinkFromLocation`, `update`, `remove`),
`src/locations/locations.service.ts` (LocationsService: `create`, `update`,
`remove`), `src/common/utils.ts` (`hasItem`) and the DynamoDB document-client
semantics of the `TransactWriteCommand` issued by the two link operations
(string-set `ADD`/`DELETE` update expressions and `ConditionExpression`s,
which the store evaluates atomically: both item updates commit, or the whole
transaction is cancelled with a `TransactionCanceledException`).

Conventions of the embedding:
* DynamoDB tables are lists of records; the partition key `id` is unique in
  any state DynamoDB can produce, which theorems assume as a `Nodup`
  hypothesis where they need it.
* A JS value of TypeScript type `Set<string> | string[] | undefined`
  (the duck-typed `offerIds` attribute read back from the document client)
  is the inductive `Coll`; `Set<string> | undefined` (`locationIds`) is
  `Option (Finset String)`.
* `async`/`await` plus thrown `HttpException`s become `Except ApiError`;
  infrastructure failures of the store are injected through an explicit
  `fault : Option StoreError` argument of each operation that issues a
  transaction: `some e` means the `transactWrite` call threw `e` instead of
  executing (the state is unchanged), `none` means the store executed the
  transaction and cancelled it exactly when a condition (or update-expression
  validation) failed.
* `new Date().toISOString()` is an opaque `now : String` parameter.
-/

namespace Fidel

/-- A store-client error as observed by the `catch` blocks of the service:
only its `name` is inspected (`error.name === "TransactionCanceledException"`). -/
structure StoreError where
  name : String
deriving DecidableEq

/-- The typed errors the services throw (`NotFoundException`,
`ConflictException`) plus a re-thrown store error (`throw error`). -/
inductive ApiError where
  | notFound (msg : String)
  | conflict (msg : String)
  | store (e : StoreError)
deriving DecidableEq

/-- TypeScript value of type `Set<string> | string[] | undefined`: the three
shapes the linked-id collection `location.offerIds` can take at runtime. -/
inductive Coll where
  | undef : Coll
  | set (s : Finset String) : Coll
  | arr (l : List String) : Coll
deriving DecidableEq

/-- Function `hasItem` from `src/common/utils.ts`:
`if (!collection) return false; if (collection instanceof Set) return collection.has(item); return collection.includes(item);` -/
def hasItem : Coll → String → Bool
  | .undef, _ => false
  | .set s, item => decide (item ∈ s)
  | .arr l, item => l.contains item

/-- Spec-side membership predicate for a duck-typed collection: the item is
present and the collection exists.  Used to state what `hasItem` decides. -/
def collMem : Coll → String → Prop
  | .undef, _ => False
  | .set s, item => item ∈ s
  | .arr l, item => item ∈ l

instance : ∀ (c : Coll) (item : String), Decidable (collMem c item) := by
  intro c item
  cases c with
  | undef => exact .isFalse (by simp [collMem])
  | set s => exact inferInstanceAs (Decidable (item ∈ s))
  | arr l => exact inferInstanceAs (Decidable (item ∈ l))

/-- DynamoDB `contains(attr, v)` condition on a duck-typed attribute:
false when the attribute is absent, membership for a set or a list. -/
def collContains : Coll → String → Bool
  | .undef, _ => false
  | .set s, v => decide (v ∈ s)
  | .arr l, v => l.contains v

/-- DynamoDB `attribute_not_exists(attr)` is the negation of this. -/
def collAttributeExists : Coll → Bool
  | .undef => false
  | .set _ => true
  | .arr _ => true

/-- DynamoDB `ADD attr :v` where `:v` is a one-element string set: creates the
set when the attribute is absent, inserts into an existing set.  On a list
attribute the update expression is a validation error, which cancels the
transaction; `none` signals that. -/
def collAdd : Coll → String → Option Coll
  | .undef, v => some (.set {v})
  | .set s, v => some (.set (insert v s))
  | .arr _, _ => none

/-- DynamoDB `DELETE attr :v`: removes `v` from a string set, deleting the
attribute when the set becomes empty (DynamoDB stores no empty sets); a no-op
on an absent attribute; a validation error (`none`) on a list attribute. -/
def collDelete : Coll → String → Option Coll
  | .undef, _ => some .undef
  | .set s, v => some (if s.erase v = ∅ then .undef else .set (s.erase v))
  | .arr _, _ => none

/-- Value of `offerIdsArray.filter(id => id !== offerId).length` where
`offerIdsArray = location.offerIds instanceof Set ? Array.from(location.offerIds) : (location.offerIds || [])`:
the number of ids of the collection different from `offerId`.  JS
`Array.from` enumerates a `Set` (each element once, insertion order), so the
length of the filtered array is the cardinality of the filtered set; the
enumeration order is not observable in the length. -/
def offerIdsFilterLen (c : Coll) (offerId : String) : Nat :=
  match c with
  | .undef => 0
  | .set s => (s.filter (fun x => x ≠ offerId)).card
  | .arr l => (l.filter (fun x => x != offerId)).length

/-- The elements of a duck-typed collection, as a finite set. -/
def collElems : Coll → Finset String
  | .undef => ∅
  | .set s => s
  | .arr l => l.toFinset

/-- Whether the duck-typed collection is non-empty (absent counts as empty). -/
def collNonempty : Coll → Bool
  | .undef => false
  | .set s => decide (s ≠ ∅)
  | .arr l => !l.isEmpty

/-- DynamoDB `contains(locationIds, v)` on the offer-side attribute of type
`Set<string> | undefined`. -/
def osetContains : Option (Finset String) → String → Bool
  | none, _ => false
  | some s, v => decide (v ∈ s)

/-- DynamoDB `DELETE locationIds :v` on the offer side: the attribute is
removed when the set becomes empty. -/
def osetDelete : Option (Finset String) → String → Option (Finset String)
  | none, _ => none
  | some s, v => if s.erase v = ∅ then none else some (s.erase v)

/-- The `Location` record (entity `src/dynamodb/entities/location.entity.ts`;
the `nameLower` derived key is the field of the case-insensitive entity
variant of the same file's class form).  `offerIds` keeps the duck-typed
shape the document client hands back. -/
structure LocationRec where
  id : String
  brandId : String
  name : String
  nameLower : String
  address : String
  offerIds : Coll
  hasOffer : Bool
  createdAt : String
  updatedAt : String
deriving DecidableEq

/-- The `Offer` record (entity `src/dynamodb/entities/offer.entity.ts`):
`locationIds?: Set<string>` and a numeric `locationsTotal`. -/
structure OfferRec where
  id : String
  brandId : String
  name : String
  description : String
  locationIds : Option (Finset String)
  locationsTotal : Int
  createdAt : String
  updatedAt : String
deriving DecidableEq

/-- The `Brand` record (entity `src/dynamodb/entities/brand.entity.ts`). -/
structure BrandRec where
  id : String
  name : String
  nameLower : String
  description : String
  createdAt : String
  updatedAt : String
deriving DecidableEq

/-- The persistent store: the three DynamoDB tables. -/
structure Db where
  brands : List BrandRec
  offers : List OfferRec
  locations : List LocationRec
deriving DecidableEq

/-- Key lookup in a table (`GetCommand` on the partition key `id`). -/
def findOfferRec (db : Db) (id : String) : Option OfferRec :=
  db.offers.find? (fun o => o.id == id)

/-- Key lookup in the locations table. -/
def findLocationRec (db : Db) (id : String) : Option LocationRec :=
  db.locations.find? (fun l => l.id == id)

/-- Key lookup in the brands table. -/
def findBrandRec (db : Db) (id : String) : Option BrandRec :=
  db.brands.find? (fun b => b.id == id)

/-- An `UpdateCommand` keyed on `id`: rewrite the matching record. -/
def updateById {α : Type} (idOf : α → String) (l : List α) (key : String)
    (f : α → α) : List α :=
  l.map (fun x => if idOf x == key then f x else x)

/-- DynamoDB keys are unique: no two rows of a table share an `id`. -/
def wellKeyed (db : Db) : Prop :=
  (db.offers.map (fun o => o.id)).Nodup ∧
    (db.locations.map (fun l => l.id)).Nodup

/-- The `TransactWriteCommand` issued by `linkToLocation`
(`offers.service.ts:134-169`): two conditional `Update`s, evaluated
atomically by the store.  Result `none` is a cancelled transaction
(condition failure or update-expression validation error on either item),
surfaced to the caller as a `TransactionCanceledException`.  The two `Key`
lookups find the records the service just read (same state, unique keys). -/
def linkTransactWrite (db : Db) (offerId locationId now : String) : Option Db :=
  match findLocationRec db locationId, findOfferRec db offerId with
  | some location, some offer =>
    -- location item condition: attribute_not_exists(offerIds) OR NOT contains(offerIds, :offerIdValue)
    if collAttributeExists location.offerIds && collContains location.offerIds offerId then none
    -- offer item condition: attribute_not_exists(locationIds) OR NOT contains(locationIds, :locationIdValue)
    else if osetContains offer.locationIds locationId then none
    else
      match collAdd location.offerIds offerId with
      | none => none
      | some newOfferIds =>
        some { db with
          locations := updateById (fun l => l.id) db.locations locationId
            (fun l => { l with offerIds := newOfferIds, hasOffer := true, updatedAt := now }),
          offers := updateById (fun o => o.id) db.offers offerId
            (fun o => { o with
              locationIds := some (insert locationId (offer.locationIds.getD ∅)),
              locationsTotal := offer.locationsTotal + 1,
              updatedAt := now }) }
  | _, _ => none

/-- The `TransactWriteCommand` issued by `unlinkFromLocation`
(`offers.service.ts:226-261`); `hasOfferNew` is the value the service
computed before the write and sends as `:hasOffer`. -/
def unlinkTransactWrite (db : Db) (offerId locationId now : String)
    (hasOfferNew : Bool) : Option Db :=
  match findLocationRec db locationId, findOfferRec db offerId with
  | some location, some offer =>
    -- location item condition: contains(offerIds, :offerIdValue)
    if !collContains location.offerIds offerId then none
    -- offer item condition: locationsTotal > :zero AND contains(locationIds, :locationIdValue)
    else if !(decide (offer.locationsTotal > 0) && osetContains offer.locationIds locationId) then none
    else
      match collDelete location.offerIds offerId with
      | none => none
      | some newOfferIds =>
        some { db with
          locations := updateById (fun l => l.id) db.locations locationId
            (fun l => { l with offerIds := newOfferIds, hasOffer := hasOfferNew, updatedAt := now }),
          offers := updateById (fun o => o.id) db.offers offerId
            (fun o => { o with
              locationIds := osetDelete offer.locationIds locationId,
              locationsTotal := offer.locationsTotal - 1,
              updatedAt := now }) }
  | _, _ => none

/-- Method `OffersService.linkToLocation` (`offers.service.ts:113-188`). -/
def linkToLocation (db : Db) (offerId locationId now : String)
    (fault : Option StoreError) : Except ApiError (Db × OfferRec) :=
  match findOfferRec db offerId with
  | none => .error (.notFound ("Offer with id " ++ offerId ++ " not found"))
  | some offer =>
    match findLocationRec db locationId with
    | none => .error (.notFound ("Location with id " ++ locationId ++ " not found"))
    | some location =>
      if location.brandId != offer.brandId then
        .error (.conflict "Cannot link offer to a location from a different brand")
      else if hasItem location.offerIds offerId then
        .error (.conflict ("Offer " ++ offerId ++ " is already linked to this location"))
      else
        match fault with
        | some e =>
          if e.name == "TransactionCanceledException" then
            .error (.conflict ("Offer " ++ offerId ++ " is already linked to location " ++ locationId))
          else
            .error (.store e)
        | none =>
          match linkTransactWrite db offerId locationId now with
          | none =>
            .error (.conflict ("Offer " ++ offerId ++ " is already linked to location " ++ locationId))
          | some db' =>
            .ok (db', { offer with
              locationIds := some (insert locationId (offer.locationIds.getD ∅)),
              locationsTotal := offer.locationsTotal + 1,
              updatedAt := now })

/-- Method `OffersService.unlinkFromLocation` (`offers.service.ts:201-283`). -/
def unlinkFromLocation (db : Db) (offerId locationId now : String)
    (fault : Option StoreError) : Except ApiError (Db × OfferRec) :=
  match findOfferRec db offerId with
  | none => .error (.notFound ("Offer with id " ++ offerId ++ " not found"))
  | some offer =>
    match findLocationRec db locationId with
    | none => .error (.notFound ("Location with id " ++ locationId ++ " not found"))
    | some location =>
      if location.brandId != offer.brandId then
        .error (.conflict "Cannot unlink offer from a location from a different brand")
      else if !hasItem location.offerIds offerId then
        .error (.notFound ("Offer " ++ offerId ++ " is not linked to this location"))
      else
        match fault with
        | some e =>
          if e.name == "TransactionCanceledException" then
            .error (.notFound ("Offer " ++ offerId ++ " is not linked to location " ++ locationId))
          else
            .error (.store e)
        | none =>
          -- const offerIdsArray = ...; const hasOffer = offerIdsArray.filter(id => id !== offerId).length > 0;
          match unlinkTransactWrite db offerId locationId now
              (decide (0 < offerIdsFilterLen location.offerIds offerId)) with
          | none =>
            .error (.notFound ("Offer " ++ offerId ++ " is not linked to location " ++ locationId))
          | some db' =>
            .ok (db', { offer with
              locationIds :=
                (if (offer.locationIds.getD ∅).erase locationId = ∅ then none
                 else some ((offer.locationIds.getD ∅).erase locationId)),
              locationsTotal := max 0 (offer.locationsTotal - 1),
              updatedAt := now })

/-- A `PutCommand`: create or replace the item with the same key. -/
def putOffer (db : Db) (o : OfferRec) : Db :=
  if db.offers.any (fun x => x.id == o.id) then
    { db with offers := db.offers.map (fun x => if x.id == o.id then o else x) }
  else
    { db with offers := db.offers ++ [o] }

/-- A `PutCommand` on the locations table. -/
def putLocation (db : Db) (l : LocationRec) : Db :=
  if db.locations.any (fun x => x.id == l.id) then
    { db with locations := db.locations.map (fun x => if x.id == l.id then l else x) }
  else
    { db with locations := db.locations ++ [l] }

/-- DTO `UpdateOfferDto` (`src/offers/dto/update-offer.dto.ts`): optional
`name` and `description` only. -/
structure UpdateOfferDto where
  name : Option String
  description : Option String
deriving DecidableEq

/-- DTO `UpdateLocationDto` (`src/locations/dto/update-location.dto.ts`):
optional `name` and `address` only. -/
structure UpdateLocationDto where
  name : Option String
  address : Option String
deriving DecidableEq

/-- DTO `CreateLocationDto` (`src/locations/dto/create-location.dto.ts`). -/
structure CreateLocationDto where
  brandId : String
  name : String
  address : String
deriving DecidableEq

/-- Method `OffersRepository.findByBrandIdAndName`: GSI query on `(brandId, name)`. -/
def findOfferByBrandIdAndName (db : Db) (brandId name : String) : Option OfferRec :=
  db.offers.find? (fun o => o.brandId == brandId && o.name == name)

/-- Condition `if (updateOfferDto.name && updateOfferDto.name !== offer.name)`: the
JS condition guarding the uniqueness probe — a truthy (non-empty) new name
that differs from the current one. -/
def offerNameChecked (dto : UpdateOfferDto) (offer : OfferRec) : Bool :=
  match dto.name with
  | some n => n != "" && n != offer.name
  | none => false

/-- Method `OffersService.update` (`offers.service.ts:73-96`): read, optional
name-collision probe (skipped for a falsy or unchanged name), then a
full-record `put` of the spread `{...offer, ...updateOfferDto, updatedAt}`.
A DTO field that was not sent is not an own property of the DTO object, so
the spread leaves the read value in place (`Option.getD`). -/
def offersUpdate (db : Db) (id : String) (dto : UpdateOfferDto) (now : String) :
    Except ApiError (Db × OfferRec) :=
  match findOfferRec db id with
  | none => .error (.notFound ("Offer with id " ++ id ++ " not found"))
  | some offer =>
    if offerNameChecked dto offer &&
        (findOfferByBrandIdAndName db offer.brandId (dto.name.getD "")).isSome then
      .error (.conflict ("Offer with name \"" ++ dto.name.getD "" ++
        "\" already exists for this brand"))
    else
      .ok (putOffer db { offer with
          name := dto.name.getD offer.name,
          description := dto.description.getD offer.description,
          updatedAt := now },
        { offer with
          name := dto.name.getD offer.name,
          description := dto.description.getD offer.description,
          updatedAt := now })

/-- Method `LocationsRepository.findByBrandIdAndName`: GSI query on exact
`(brandId, name)` (the service variant without the `nameLower` key). -/
def findLocationByBrandIdAndName (db : Db) (brandId name : String) :
    Option LocationRec :=
  db.locations.find? (fun l => l.brandId == brandId && l.name == name)

/-- The JS truthiness/difference guard of the location name probe. -/
def locationNameChecked (dto : UpdateLocationDto) (location : LocationRec) : Bool :=
  match dto.name with
  | some n => n != "" && n != location.name
  | none => false

/-- Method `LocationsService.update` (`locations.service.ts:98-123`): read, optional
exact-name collision probe, then a full-record `put` of
`{...location, ...updateLocationDto, updatedAt}`. -/
def locationsUpdate (db : Db) (id : String) (dto : UpdateLocationDto)
    (now : String) : Except ApiError (Db × LocationRec) :=
  match findLocationRec db id with
  | none => .error (.notFound ("Location with id " ++ id ++ " not found"))
  | some location =>
    if locationNameChecked dto location &&
        (findLocationByBrandIdAndName db location.brandId (dto.name.getD "")).isSome then
      .error (.conflict ("Location with name \"" ++ dto.name.getD "" ++
        "\" already exists for this brand"))
    else
      .ok (putLocation db { location with
          name := dto.name.getD location.name,
          address := dto.address.getD location.address,
          updatedAt := now },
        { location with
          name := dto.name.getD location.name,
          address := dto.address.getD location.address,
          updatedAt := now })

/-- Method `OffersService.remove` (`offers.service.ts:98-101`): existence check,
then a plain `DeleteCommand` on the offer item — nothing else is touched. -/
def offersRemove (db : Db) (id : String) : Except ApiError Db :=
  match findOfferRec db id with
  | none => .error (.notFound ("Offer with id " ++ id ++ " not found"))
  | some _ => .ok { db with offers := db.offers.filter (fun o => o.id != id) }

/-- Method `LocationsService.remove` (`locations.service.ts:130-133`): existence
check, then a plain `DeleteCommand` on the location item. -/
def locationsRemove (db : Db) (id : String) : Except ApiError Db :=
  match findLocationRec db id with
  | none => .error (.notFound ("Location with id " ++ id ++ " not found"))
  | some _ => .ok { db with locations := db.locations.filter (fun l => l.id != id) }

/-- JS `name.toLowerCase()`: character-wise lowering.  (`String.toLower`
itself is position-indexed and does not reduce in the kernel; the
character-list map is the same function on the representable strings.) -/
def jsToLower (s : String) : String := ⟨s.data.map Char.toLower⟩

/-- Method `LocationsService.create`, the case-insensitive variant (the
`LocationsService` whose uniqueness probe is `findByBrandIdAndNameLower`;
`src/unnamed/part_008:151-176`): brand existence check, uniqueness probe on
`(brandId, name.toLowerCase())`, then a `put` of the new record carrying the
derived `nameLower` key.  The constructed object spreads the DTO and never
sets `offerIds`, so the attribute is absent on a fresh location. -/
def locationsCreateCI (db : Db) (dto : CreateLocationDto) (newId now : String) :
    Except ApiError (Db × LocationRec) :=
  match findBrandRec db dto.brandId with
  | none => .error (.notFound ("Brand with id " ++ dto.brandId ++ " not found"))
  | some _ =>
    let nameLower := jsToLower dto.name
    match db.locations.find? (fun l => l.brandId == dto.brandId && l.nameLower == nameLower) with
    | some _ =>
      .error (.conflict ("Location with name \"" ++ dto.name ++
        "\" already exists for this brand"))
    | none =>
      let location : LocationRec :=
        { id := newId, brandId := dto.brandId, name := dto.name,
          nameLower := nameLower, address := dto.address,
          offerIds := .undef, hasOffer := false,
          createdAt := now, updatedAt := now }
      .ok (putLocation db location, location)

/-- Offer-side invariant of the spec: `locationsTotal == |locationIds|`. -/
def offerInv (o : OfferRec) : Prop :=
  o.locationsTotal = ((o.locationIds.getD ∅).card : Int)

/-- Location-side invariant of the spec: `hasOffer == (offerIds non-empty)`. -/
def locationInv (l : LocationRec) : Prop :=
  l.hasOffer = collNonempty l.offerIds

/-- Both invariants, over every record of the store. -/
def dbInv (db : Db) : Prop :=
  (∀ o ∈ db.offers, offerInv o) ∧ (∀ l ∈ db.locations, locationInv l)

/-- One call of the link coordinator: a `linkToLocation` or
`unlinkFromLocation` invocation together with its timestamp and the store
fault (if any) its transaction ran into. -/
inductive LinkOp where
  | link (offerId locationId now : String) (fault : Option StoreError)
  | unlink (offerId locationId now : String) (fault : Option StoreError)

/-- The store state after one call, whether it succeeded or failed: a failed
call leaves the store as it was. -/
def applyLinkOp (db : Db) (op : LinkOp) : Db :=
  match op with
  | .link offerId locationId now fault =>
    match linkToLocation db offerId locationId now fault with
    | .ok (db', _) => db'
    | .error _ => db
  | .unlink offerId locationId now fault =>
    match unlinkFromLocation db offerId locationId now fault with
    | .ok (db', _) => db'
    | .error _ => db

/-- The store state after a sequence of link/unlink calls. -/
def runLinkOps (db : Db) (ops : List LinkOp) : Db :=
  ops.foldl applyLinkOp db

/-- The derived link relation of the spec: offer `O` is linked to location
`L` iff `O.id ∈ L.offerIds` and `L.id ∈ O.locationIds` (both records read
from the store). -/
def isLinkedB (db : Db) (offerId locationId : String) : Bool :=
  match findOfferRec db offerId, findLocationRec db locationId with
  | some o, some l => collContains l.offerIds offerId && osetContains o.locationIds locationId
  | _, _ => false

/-- Referential soundness of `offerIds`: every id held by a location's
`offerIds` names an offer actually linked to that location. -/
def offerIdsSound (db : Db) : Prop :=
  ∀ l ∈ db.locations, ∀ oid ∈ collElems l.offerIds, isLinkedB db oid l.id = true

instance (db : Db) : Decidable (offerIdsSound db) := by
  unfold offerIdsSound
  infer_instance

/-! Section: Record rewrites of the two transactions, success specs, fixtures -/

/-- The location-record rewrite the link transaction performs. -/
def linkLocUpd (newOfferIds : Coll) (now : String) (l : LocationRec) : LocationRec :=
  { l with offerIds := newOfferIds, hasOffer := true, updatedAt := now }

/-- The offer-record rewrite the link transaction performs (`:inc` = 1,
`ADD locationIds {locationId}`), with the new set value computed from the
offer at the key. -/
def linkOfferUpd (offer : OfferRec) (locationId now : String) (o : OfferRec) : OfferRec :=
  { o with
    locationIds := some (insert locationId (offer.locationIds.getD ∅)),
    locationsTotal := offer.locationsTotal + 1,
    updatedAt := now }

/-- The location-record rewrite the unlink transaction performs. -/
def unlinkLocUpd (newOfferIds : Coll) (hasOfferNew : Bool) (now : String)
    (l : LocationRec) : LocationRec :=
  { l with offerIds := newOfferIds, hasOffer := hasOfferNew, updatedAt := now }

/-- The offer-record rewrite the unlink transaction performs. -/
def unlinkOfferUpd (offer : OfferRec) (locationId now : String) (o : OfferRec) : OfferRec :=
  { o with
    locationIds := osetDelete offer.locationIds locationId,
    locationsTotal := offer.locationsTotal - 1,
    updatedAt := now }

/-- What a successful `linkToLocation offerId locationId` leaves behind and
returns, in terms of the state `db` it started from.  `offer`/`location` are
the records the coordinator read before the write. -/
def LinkSuccessSpec (db db' : Db) (offerId locationId now : String)
    (ret : OfferRec) : Prop :=
  ∃ offer location,
    findOfferRec db offerId = some offer ∧
    findLocationRec db locationId = some location ∧
    -- location record: offerId added to offerIds, hasOffer = true, updatedAt = now
    (∃ l', findLocationRec db' locationId = some l' ∧
      (∀ x, collMem l'.offerIds x ↔ (collMem location.offerIds x ∨ x = offerId)) ∧
      l'.hasOffer = true ∧ l'.updatedAt = now ∧
      l'.id = location.id ∧ l'.brandId = location.brandId ∧
      l'.name = location.name ∧ l'.address = location.address ∧
      l'.createdAt = location.createdAt) ∧
    -- offer record: locationId added to locationIds, locationsTotal + 1, updatedAt = now
    (∃ o', findOfferRec db' offerId = some o' ∧
      o'.locationIds = some (insert locationId (offer.locationIds.getD ∅)) ∧
      o'.locationsTotal = offer.locationsTotal + 1 ∧
      o'.updatedAt = now ∧ o'.id = offer.id ∧ o'.brandId = offer.brandId ∧
      o'.name = offer.name ∧ o'.description = offer.description ∧
      o'.createdAt = offer.createdAt) ∧
    -- nothing else moved (the single transaction touched exactly these two items)
    db'.brands = db.brands ∧
    (∀ id, id ≠ offerId → findOfferRec db' id = findOfferRec db id) ∧
    (∀ id, id ≠ locationId → findLocationRec db' id = findLocationRec db id) ∧
    -- the returned offer is the pre-read offer plus exactly this delta, not a re-read
    ret = { offer with
      locationIds := some (insert locationId (offer.locationIds.getD ∅)),
      locationsTotal := offer.locationsTotal + 1,
      updatedAt := now }

/-- What a successful `unlinkFromLocation offerId locationId` leaves behind
and returns. -/
def UnlinkSuccessSpec (db db' : Db) (offerId locationId now : String)
    (ret : OfferRec) : Prop :=
  ∃ offer location,
    findOfferRec db offerId = some offer ∧
    findLocationRec db locationId = some location ∧
    -- location record: offerId removed, hasOffer true iff another id remains
    (∃ l', findLocationRec db' locationId = some l' ∧
      (∀ x, collMem l'.offerIds x ↔ (collMem location.offerIds x ∧ x ≠ offerId)) ∧
      l'.hasOffer = collNonempty l'.offerIds ∧
      l'.updatedAt = now ∧
      l'.id = location.id ∧ l'.brandId = location.brandId ∧
      l'.name = location.name ∧ l'.address = location.address ∧
      l'.createdAt = location.createdAt) ∧
    -- offer record: locationId removed, locationsTotal decremented, never negative
    (∃ o', findOfferRec db' offerId = some o' ∧
      (∀ x, x ∈ o'.locationIds.getD ∅ ↔ (x ∈ offer.locationIds.getD ∅ ∧ x ≠ locationId)) ∧
      o'.locationsTotal = offer.locationsTotal - 1 ∧
      o'.locationsTotal = max 0 (offer.locationsTotal - 1) ∧
      o'.locationsTotal ≥ 0 ∧
      o'.updatedAt = now ∧ o'.id = offer.id ∧ o'.brandId = offer.brandId ∧
      o'.name = offer.name ∧ o'.description = offer.description ∧
      o'.createdAt = offer.createdAt) ∧
    -- the write-time condition the offer-side item carried
    offer.locationsTotal > 0 ∧
    osetContains offer.locationIds locationId = true ∧
    -- nothing else moved
    db'.brands = db.brands ∧
    (∀ id, id ≠ offerId → findOfferRec db' id = findOfferRec db id) ∧
    (∀ id, id ≠ locationId → findLocationRec db' id = findLocationRec db id) ∧
    -- the returned offer is the pre-read offer with the reverse delta applied
    ret = { offer with
      locationIds :=
        (if (offer.locationIds.getD ∅).erase locationId = ∅ then none
         else some ((offer.locationIds.getD ∅).erase locationId)),
      locationsTotal := max 0 (offer.locationsTotal - 1),
      updatedAt := now }

/-- A fresh offer of brand `b1` with no linked locations. -/
def oW : OfferRec :=
  { id := "o1", brandId := "b1", name := "Off", description := "d",
    locationIds := none, locationsTotal := 0, createdAt := "t0", updatedAt := "t0" }

/-- A fresh location of brand `b1` whose `offerIds` attribute is absent
(as `LocationsService.create` leaves it). -/
def lW : LocationRec :=
  { id := "L1", brandId := "b1", name := "Loc", nameLower := "loc",
    address := "a", offerIds := .undef, hasOffer := false,
    createdAt := "t0", updatedAt := "t0" }

/-- Store with the single offer `o1` and single location `L1`, unlinked. -/
def dbW : Db := { brands := [], offers := [oW], locations := [lW] }

/-- Offer `o1` after linking to `L1` at time `t1`. -/
def oW1 : OfferRec :=
  { oW with locationIds := some {"L1"}, locationsTotal := 1, updatedAt := "t1" }

/-- Location `L1` after linking to `o1` at time `t1`. -/
def lW1 : LocationRec :=
  { lW with offerIds := .set {"o1"}, hasOffer := true, updatedAt := "t1" }

/-- Store after `link(o1, L1)` at `t1`. -/
def dbW1 : Db := { brands := [], offers := [oW1], locations := [lW1] }

/-- Offer `o1` after the subsequent unlink at `t2`. -/
def oW2 : OfferRec :=
  { oW with locationIds := none, locationsTotal := 0, updatedAt := "t2" }

/-- Location `L1` after the subsequent unlink at `t2`. -/
def lW2 : LocationRec :=
  { lW with offerIds := .undef, hasOffer := false, updatedAt := "t2" }

/-- Store after `link(o1, L1)` then `unlink(o1, L1)`. -/
def dbW2 : Db := { brands := [], offers := [oW2], locations := [lW2] }

/-- DynamoDB never persists an empty string set: a set-valued attribute is
either absent or non-empty.  The roundtrip claim needs this well-formedness
of the starting store. -/
def noEmptySets (db : Db) : Prop :=
  (∀ o ∈ db.offers, o.locationIds ≠ some ∅) ∧
    (∀ l ∈ db.locations, l.offerIds ≠ .set ∅)

/-- Brand fixture for the C9 witness. -/
def bW : BrandRec :=
  { id := "b1", name := "Acme", nameLower := "acme", description := "",
    createdAt := "t0", updatedAt := "t0" }

/-- Existing location "Main St" of brand `b1` with its derived key. -/
def lX : LocationRec :=
  { id := "L2", brandId := "b1", name := "Main St", nameLower := "main st",
    address := "a2", offerIds := .undef, hasOffer := false,
    createdAt := "t0", updatedAt := "t0" }

/-- Store with brand `b1` and location "Main St". -/
def dbB : Db := { brands := [bW], offers := [], locations := [lX] }

/-! Section: List-level lemmas about keyed tables -/

theorem find?_updateById_self {α : Type} (idOf : α → String) (l : List α)
    (key : String) (f : α → α) (hf : ∀ x, idOf (f x) = idOf x) :
    (updateById idOf l key f).find? (fun x => idOf x == key) =
      (l.find? (fun x => idOf x == key)).map f := by
  induction l with
  | nil => rfl
  | cons a t ih =>
    simp only [updateById, List.map_cons]
    by_cases ha : idOf a = key
    · rw [if_pos (by simpa using ha)]
      rw [List.find?_cons_of_pos _ (by simp [hf, ha]),
        List.find?_cons_of_pos _ (by simp [ha])]
      rfl
    · rw [if_neg (by simpa using ha)]
      rw [List.find?_cons_of_neg _ (by simp [ha]),
        List.find?_cons_of_neg _ (by simp [ha])]
      simpa [updateById] using ih

theorem find?_updateById_ne {α : Type} (idOf : α → String) (l : List α)
    (key key' : String) (f : α → α) (hf : ∀ x, idOf (f x) = idOf x)
    (hne : key' ≠ key) :
    (updateById idOf l key f).find? (fun x => idOf x == key') =
      l.find? (fun x => idOf x == key') := by
  induction l with
  | nil => rfl
  | cons a t ih =>
    simp only [updateById, List.map_cons]
    by_cases ha : idOf a = key
    · rw [if_pos (by simpa using ha)]
      rw [List.find?_cons_of_neg _ (by simp [hf, ha, Ne.symm hne]),
        List.find?_cons_of_neg _ (by simp [ha, Ne.symm hne])]
      simpa [updateById] using ih
    · rw [if_neg (by simpa using ha)]
      by_cases ha' : idOf a = key'
      · rw [List.find?_cons_of_pos _ (by simp [ha']),
          List.find?_cons_of_pos _ (by simp [ha'])]
      · rw [List.find?_cons_of_neg _ (by simp [ha']),
          List.find?_cons_of_neg _ (by simp [ha'])]
        simpa [updateById] using ih

theorem mem_updateById {α : Type} (idOf : α → String) (l : List α)
    (key : String) (f : α → α) (y : α) (hy : y ∈ updateById idOf l key f) :
    ∃ x ∈ l, y = if idOf x == key then f x else x := by
  simp only [updateById, List.mem_map] at hy
  obtain ⟨x, hx, hxy⟩ := hy
  exact ⟨x, hx, hxy.symm⟩

theorem map_idOf_updateById {α : Type} (idOf : α → String) (l : List α)
    (key : String) (f : α → α) (hf : ∀ x, idOf (f x) = idOf x) :
    (updateById idOf l key f).map idOf = l.map idOf := by
  induction l with
  | nil => rfl
  | cons a t ih =>
    simp only [updateById, List.map_cons] at *
    rw [ih]
    by_cases ha : idOf a = key
    · rw [if_pos (by simpa using ha), hf]
    · rw [if_neg (by simpa using ha)]

theorem find?_eq_of_mem_nodup {α : Type} (idOf : α → String) (l : List α)
    (hnd : (l.map idOf).Nodup) (x : α) (hx : x ∈ l) :
    l.find? (fun y => idOf y == idOf x) = some x := by
  induction l with
  | nil => cases hx
  | cons a t ih =>
    simp only [List.map_cons, List.nodup_cons] at hnd
    rcases List.mem_cons.mp hx with rfl | hxt
    · exact List.find?_cons_of_pos _ (by simp)
    · have hne : idOf a ≠ idOf x := by
        intro hcontra
        exact hnd.1 (hcontra ▸ List.mem_map_of_mem idOf hxt)
      rw [List.find?_cons_of_neg _ (by simp [hne])]
      exact ih hnd.2 hxt

theorem find?_filter_ne {α : Type} (idOf : α → String) (l : List α)
    (key key' : String) (hne : key' ≠ key) :
    (l.filter (fun x => idOf x != key)).find? (fun x => idOf x == key') =
      l.find? (fun x => idOf x == key') := by
  induction l with
  | nil => rfl
  | cons a t ih =>
    by_cases ha : idOf a = key
    · rw [List.filter_cons_of_neg (by simp [ha])]
      rw [List.find?_cons_of_neg _ (by simp [ha, Ne.symm hne])]
      exact ih
    · rw [List.filter_cons_of_pos (by simp [ha])]
      by_cases ha' : idOf a = key'
      · rw [List.find?_cons_of_pos _ (by simp [ha']),
          List.find?_cons_of_pos _ (by simp [ha'])]
      · rw [List.find?_cons_of_neg _ (by simp [ha']),
          List.find?_cons_of_neg _ (by simp [ha'])]
        exact ih

/-! Section: Collection-level lemmas -/

theorem hasItem_eq_collContains (c : Coll) (v : String) :
    hasItem c v = collContains c v := by
  cases c <;> rfl

theorem hasItem_iff_collMem (c : Coll) (v : String) :
    hasItem c v = true ↔ collMem c v := by
  cases c <;> simp [hasItem, collMem]

/-- The `hasOffer` value `unlinkFromLocation` sends in the transaction, on a
set-shaped `offerIds`, is exactly "the set minus the removed id is
non-empty". -/
theorem hasOfferNew_set_eq (s : Finset String) (v : String) :
    decide (0 < offerIdsFilterLen (.set s) v) = decide (s.erase v ≠ ∅) := by
  rw [decide_eq_decide]
  show 0 < (s.filter (fun x => x ≠ v)).card ↔ s.erase v ≠ ∅
  rw [Finset.filter_ne', Finset.card_pos, Finset.nonempty_iff_ne_empty]

/-! Section: Inversion of a successful `linkToLocation` -/

theorem linkToLocation_ok_elim {db : Db} {offerId locationId now : String}
    {fault : Option StoreError} {db' : Db} {ret : OfferRec}
    (h : linkToLocation db offerId locationId now fault = .ok (db', ret)) :
    ∃ offer location newOfferIds,
      findOfferRec db offerId = some offer ∧
      findLocationRec db locationId = some location ∧
      location.brandId = offer.brandId ∧
      hasItem location.offerIds offerId = false ∧
      fault = none ∧
      osetContains offer.locationIds locationId = false ∧
      collAdd location.offerIds offerId = some newOfferIds ∧
      db'.brands = db.brands ∧
      db'.locations =
        updateById (fun l => l.id) db.locations locationId (linkLocUpd newOfferIds now) ∧
      db'.offers =
        updateById (fun o => o.id) db.offers offerId (linkOfferUpd offer locationId now) ∧
      ret = linkOfferUpd offer locationId now offer := by
  unfold linkToLocation at h
  split at h
  · exact absurd h (by simp)
  rename_i offer hfo
  split at h
  · exact absurd h (by simp)
  rename_i location hfl
  split at h
  · exact absurd h (by simp)
  rename_i hb
  split at h
  · exact absurd h (by simp)
  rename_i hhas
  split at h
  · split at h <;> exact absurd h (by simp)
  split at h
  · exact absurd h (by simp)
  rename_i db1 htx
  unfold linkTransactWrite at htx
  rw [hfl, hfo] at htx
  split at htx
  rotate_left
  · rename_i hfalse
    exact (hfalse location offer rfl rfl).elim
  rename_i location2 offer2 heq1 heq2
  have hleq := Option.some.inj heq1
  have hoeq := Option.some.inj heq2
  subst hleq
  subst hoeq
  split at htx
  · exact absurd htx (by simp)
  rename_i hc1
  split at htx
  · exact absurd htx (by simp)
  rename_i hc2
  split at htx
  · exact absurd htx (by simp)
  rename_i newOfferIds hadd
  simp only [Option.some.injEq] at htx
  simp only [Except.ok.injEq, Prod.mk.injEq] at h
  refine ⟨offer, location, newOfferIds, hfo, hfl, by simpa using hb,
    by simpa using hhas, rfl, by simpa using hc2, hadd, ?_, ?_, ?_, ?_⟩
  · rw [← h.1, ← htx]
  · rw [← h.1, ← htx]; rfl
  · rw [← h.1, ← htx]; rfl
  · exact h.2.symm

/-! Section: Inversion of a successful `unlinkFromLocation` -/

theorem unlinkFromLocation_ok_elim {db : Db} {offerId locationId now : String}
    {fault : Option StoreError} {db' : Db} {ret : OfferRec}
    (h : unlinkFromLocation db offerId locationId now fault = .ok (db', ret)) :
    ∃ offer location newOfferIds,
      findOfferRec db offerId = some offer ∧
      findLocationRec db locationId = some location ∧
      location.brandId = offer.brandId ∧
      hasItem location.offerIds offerId = true ∧
      fault = none ∧
      offer.locationsTotal > 0 ∧
      osetContains offer.locationIds locationId = true ∧
      collDelete location.offerIds offerId = some newOfferIds ∧
      db'.brands = db.brands ∧
      db'.locations =
        updateById (fun l => l.id) db.locations locationId
          (unlinkLocUpd newOfferIds
            (decide (0 < offerIdsFilterLen location.offerIds offerId)) now) ∧
      db'.offers =
        updateById (fun o => o.id) db.offers offerId (unlinkOfferUpd offer locationId now) ∧
      ret =
        { offer with
            locationIds :=
              if (offer.locationIds.getD ∅).erase locationId = ∅ then none
              else some ((offer.locationIds.getD ∅).erase locationId),
            locationsTotal := max 0 (offer.locationsTotal - 1),
            updatedAt := now } := by
  unfold unlinkFromLocation at h
  split at h
  · exact absurd h (by simp)
  rename_i offer hfo
  split at h
  · exact absurd h (by simp)
  rename_i location hfl
  split at h
  · exact absurd h (by simp)
  rename_i hb
  split at h
  · exact absurd h (by simp)
  rename_i hhas
  split at h
  · split at h <;> exact absurd h (by simp)
  split at h
  · exact absurd h (by simp)
  rename_i db1 htx
  unfold unlinkTransactWrite at htx
  rw [hfl, hfo] at htx
  split at htx
  rotate_left
  · rename_i hfalse
    exact (hfalse location offer rfl rfl).elim
  rename_i location2 offer2 heq1 heq2
  have hleq := Option.some.inj heq1
  have hoeq := Option.some.inj heq2
  subst hleq
  subst hoeq
  split at htx
  · exact absurd htx (by simp)
  rename_i hc1
  split at htx
  · exact absurd htx (by simp)
  rename_i hc2
  split at htx
  · exact absurd htx (by simp)
  rename_i newOfferIds hdel
  simp only [Option.some.injEq] at htx
  simp only [Except.ok.injEq, Prod.mk.injEq] at h
  have hc2' : offer.locationsTotal > 0 ∧
      osetContains offer.locationIds locationId = true := by
    simpa using hc2
  refine ⟨offer, location, newOfferIds, hfo, hfl, by simpa using hb,
    by simpa using hhas, rfl, hc2'.1, hc2'.2, hdel, ?_, ?_, ?_, ?_⟩
  · rw [← h.1, ← htx]
  · rw [← h.1, ← htx]; rfl
  · rw [← h.1, ← htx]; rfl
  · exact h.2.symm

theorem collAdd_mem {c c' : Coll} {v : String} (h : collAdd c v = some c') :
    ∀ x, collMem c' x ↔ (collMem c x ∨ x = v) := by
  intro x
  cases c with
  | undef =>
    simp only [collAdd, Option.some.injEq] at h
    subst h
    simp [collMem]
  | set s =>
    simp only [collAdd, Option.some.injEq] at h
    subst h
    simp [collMem, Finset.mem_insert, or_comm]
  | arr l => simp [collAdd] at h

theorem collDelete_mem {c c' : Coll} {v : String} (h : collDelete c v = some c') :
    ∀ x, collMem c' x ↔ (collMem c x ∧ x ≠ v) := by
  intro x
  cases c with
  | undef =>
    simp only [collDelete, Option.some.injEq] at h
    subst h
    simp [collMem]
  | set s =>
    simp only [collDelete, Option.some.injEq] at h
    subst h
    by_cases he : s.erase v = ∅
    · rw [if_pos he]
      simp only [collMem, false_iff]
      intro hc
      have : x ∈ s.erase v := Finset.mem_erase.mpr ⟨hc.2, hc.1⟩
      rw [he] at this
      exact absurd this (Finset.not_mem_empty x)
    · rw [if_neg he]
      simp [collMem, Finset.mem_erase, and_comm]
  | arr l => simp [collDelete] at h

theorem osetDelete_mem (o : Option (Finset String)) (v x : String) :
    x ∈ (osetDelete o v).getD ∅ ↔ (x ∈ o.getD ∅ ∧ x ≠ v) := by
  cases o with
  | none => simp [osetDelete]
  | some s =>
    simp only [osetDelete, Option.getD_some]
    by_cases he : s.erase v = ∅
    · rw [if_pos he]
      simp only [Option.getD_none, Finset.not_mem_empty, false_iff]
      intro hc
      have : x ∈ s.erase v := Finset.mem_erase.mpr ⟨hc.2, hc.1⟩
      rw [he] at this
      exact absurd this (Finset.not_mem_empty x)
    · rw [if_neg he]
      simp [Finset.mem_erase, and_comm]

/-- Beta-normal specialisations of the `updateById` lookup lemmas. -/
theorem findOffer_updateById_self (ofs : List OfferRec) (key : String)
    (f : OfferRec → OfferRec) (hf : ∀ x, (f x).id = x.id) :
    (updateById (fun o => o.id) ofs key f).find? (fun o => o.id == key) =
      (ofs.find? (fun o => o.id == key)).map f :=
  find?_updateById_self (fun o => o.id) ofs key f hf

theorem findOffer_updateById_ne (ofs : List OfferRec) (key key' : String)
    (f : OfferRec → OfferRec) (hf : ∀ x, (f x).id = x.id) (hne : key' ≠ key) :
    (updateById (fun o => o.id) ofs key f).find? (fun o => o.id == key') =
      ofs.find? (fun o => o.id == key') :=
  find?_updateById_ne (fun o => o.id) ofs key key' f hf hne

theorem findLocation_updateById_self (ls : List LocationRec) (key : String)
    (f : LocationRec → LocationRec) (hf : ∀ x, (f x).id = x.id) :
    (updateById (fun l => l.id) ls key f).find? (fun l => l.id == key) =
      (ls.find? (fun l => l.id == key)).map f :=
  find?_updateById_self (fun l => l.id) ls key f hf

theorem findLocation_updateById_ne (ls : List LocationRec) (key key' : String)
    (f : LocationRec → LocationRec) (hf : ∀ x, (f x).id = x.id) (hne : key' ≠ key) :
    (updateById (fun l => l.id) ls key f).find? (fun l => l.id == key') =
      ls.find? (fun l => l.id == key') :=
  find?_updateById_ne (fun l => l.id) ls key key' f hf hne

/-! Section: Claim C1: effects of a successful link -/

/-- C1: whenever `linkToLocation` succeeds, the location gains `offerId` in
its `offerIds` set with `hasOffer := true` and a refreshed `updatedAt`, the
offer gains `locationId` in its `locationIds` set with `locationsTotal`
incremented by 1 and a refreshed `updatedAt`, both through the single atomic
`transactWrite` (no other record changes; on any failure nothing changes, as
the error branches of `linkToLocation` return no new state), and the
returned offer is computed from the pre-read offer plus exactly this delta
rather than re-read from the store. -/
theorem C1_link_success_effects (db : Db) (offerId locationId now : String)
    (fault : Option StoreError) (db' : Db) (ret : OfferRec)
    (h : linkToLocation db offerId locationId now fault = .ok (db', ret)) :
    LinkSuccessSpec db db' offerId locationId now ret := by
  obtain ⟨offer, location, newOfferIds, hfo, hfl, hbrand, hhas, hfault, hc2,
    hadd, hbr, hlocs, hoffs, hret⟩ := linkToLocation_ok_elim h
  refine ⟨offer, location, hfo, hfl, ?_, ?_, hbr, ?_, ?_, hret⟩
  · refine ⟨linkLocUpd newOfferIds now location, ?_, collAdd_mem hadd,
      rfl, rfl, rfl, rfl, rfl, rfl, rfl⟩
    show (db'.locations).find? (fun l => l.id == locationId) = _
    rw [hlocs, findLocation_updateById_self db.locations locationId
      (linkLocUpd newOfferIds now) (fun x => rfl)]
    have : db.locations.find? (fun l => l.id == locationId) = some location := hfl
    rw [this]; rfl
  · refine ⟨linkOfferUpd offer locationId now offer, ?_, rfl, rfl, rfl, rfl,
      rfl, rfl, rfl, rfl⟩
    show (db'.offers).find? (fun o => o.id == offerId) = _
    rw [hoffs, findOffer_updateById_self db.offers offerId
      (linkOfferUpd offer locationId now) (fun x => rfl)]
    have : db.offers.find? (fun o => o.id == offerId) = some offer := hfo
    rw [this]; rfl
  · intro id hid
    show (db'.offers).find? (fun o => o.id == id) = (db.offers).find? (fun o => o.id == id)
    rw [hoffs, findOffer_updateById_ne db.offers offerId id
      (linkOfferUpd offer locationId now) (fun x => rfl) hid]
  · intro id hid
    show (db'.locations).find? (fun l => l.id == id) = (db.locations).find? (fun l => l.id == id)
    rw [hlocs, findLocation_updateById_ne db.locations locationId id
      (linkLocUpd newOfferIds now) (fun x => rfl) hid]

/-! Section: Claim C2: effects of a successful unlink -/

/-- C2: whenever `unlinkFromLocation` succeeds, one atomic conditional write
removes `offerId` from the location's `offerIds` and sets `hasOffer` to true
iff at least one other offer id remains after the removal, removes
`locationId` from the offer's `locationIds` and decrements `locationsTotal`
by 1 without ever making it negative, with the offer-side write carrying the
condition `locationsTotal > 0 AND contains(locationIds, locationId)`; the
returned offer is the pre-read offer with `locationId` removed and
`locationsTotal = max 0 (old - 1)`. -/
theorem C2_unlink_success_effects (db : Db) (offerId locationId now : String)
    (fault : Option StoreError) (db' : Db) (ret : OfferRec)
    (h : unlinkFromLocation db offerId locationId now fault = .ok (db', ret)) :
    UnlinkSuccessSpec db db' offerId locationId now ret := by
  obtain ⟨offer, location, newOfferIds, hfo, hfl, hbrand, hhas, hfault, hpos,
    hcont, hdel, hbr, hlocs, hoffs, hret⟩ := unlinkFromLocation_ok_elim h
  -- `offerIds` must be a stored string set: `hasItem` ruled out an absent
  -- attribute and `collDelete` succeeding ruled out a list attribute.
  obtain ⟨s, hs⟩ : ∃ s, location.offerIds = .set s := by
    cases hoi : location.offerIds with
    | undef => rw [hoi] at hhas; simp [hasItem] at hhas
    | set s => exact ⟨s, rfl⟩
    | arr l => rw [hoi] at hdel; simp [collDelete] at hdel
  have hoffer' : offer.locationsTotal - 1 = max 0 (offer.locationsTotal - 1) := by
    omega
  refine ⟨offer, location, hfo, hfl, ?_, ?_, hpos, hcont, hbr, ?_, ?_, hret⟩
  · refine ⟨unlinkLocUpd newOfferIds
      (decide (0 < offerIdsFilterLen location.offerIds offerId)) now location,
      ?_, collDelete_mem hdel, ?_, rfl, rfl, rfl, rfl, rfl, rfl⟩
    · show (db'.locations).find? (fun l => l.id == locationId) = _
      rw [hlocs, findLocation_updateById_self db.locations locationId
        (unlinkLocUpd newOfferIds (decide (0 < offerIdsFilterLen location.offerIds offerId)) now) (fun x => rfl)]
      have : db.locations.find? (fun l => l.id == locationId) = some location := hfl
      rw [this]; rfl
    · show (decide (0 < offerIdsFilterLen location.offerIds offerId)) = collNonempty newOfferIds
      rw [hs] at hdel ⊢
      rw [hasOfferNew_set_eq]
      simp only [collDelete, Option.some.injEq] at hdel
      subst hdel
      by_cases he : s.erase offerId = ∅
      · rw [if_pos he]
        simp [collNonempty, he]
      · rw [if_neg he]
        simp [collNonempty, he]
  · refine ⟨unlinkOfferUpd offer locationId now offer, ?_, ?_, rfl, ?_, ?_,
      rfl, rfl, rfl, rfl, rfl, rfl⟩
    · show (db'.offers).find? (fun o => o.id == offerId) = _
      rw [hoffs, findOffer_updateById_self db.offers offerId
        (unlinkOfferUpd offer locationId now) (fun x => rfl)]
      have : db.offers.find? (fun o => o.id == offerId) = some offer := hfo
      rw [this]; rfl
    · intro x
      exact osetDelete_mem offer.locationIds locationId x
    · exact hoffer'
    · show offer.locationsTotal - 1 ≥ 0
      omega
  · intro id hid
    show (db'.offers).find? (fun o => o.id == id) = (db.offers).find? (fun o => o.id == id)
    rw [hoffs, findOffer_updateById_ne db.offers offerId id
      (unlinkOfferUpd offer locationId now) (fun x => rfl) hid]
  · intro id hid
    show (db'.locations).find? (fun l => l.id == id) = (db.locations).find? (fun l => l.id == id)
    rw [hlocs, findLocation_updateById_ne db.locations locationId id
      (unlinkLocUpd newOfferIds (decide (0 < offerIdsFilterLen location.offerIds offerId)) now) (fun x => rfl) hid]

/-! Section: Concrete fixture used by the witness theorems -/

/-- Witness for C1: linking `o1` to `L1` in the concrete store succeeds and
the success-effects theorem applies to it. -/
theorem C1_link_success_effects_witness :
    linkToLocation dbW "o1" "L1" "t1" none = .ok (dbW1, oW1) ∧
      LinkSuccessSpec dbW dbW1 "o1" "L1" "t1" oW1 :=
  ⟨by rfl, C1_link_success_effects dbW "o1" "L1" "t1" none dbW1 oW1 (by rfl)⟩

/-- Witness for C2: unlinking `o1` from `L1` in the post-link store succeeds
and the success-effects theorem applies to it. -/
theorem C2_unlink_success_effects_witness :
    unlinkFromLocation dbW1 "o1" "L1" "t2" none = .ok (dbW2, oW2) ∧
      UnlinkSuccessSpec dbW1 dbW2 "o1" "L1" "t2" oW2 :=
  ⟨by rfl, C2_unlink_success_effects dbW1 "o1" "L1" "t2" none dbW2 oW2 (by rfl)⟩

/-! Section: Claim C4: read-time precondition failures happen before any write -/

/-- C4: when a read-time precondition fails — missing offer, missing
location, brand mismatch, already linked (link), not linked (unlink) — the
operation returns the corresponding typed error whatever the store would
have done (`fault` is universally quantified: the transaction is never
issued), and since the error branch carries no new state the store is
exactly what it was. -/
theorem C4_read_precondition_failures (db : Db) (offerId locationId now : String)
    (fault : Option StoreError) :
    (findOfferRec db offerId = none →
      linkToLocation db offerId locationId now fault =
        .error (.notFound ("Offer with id " ++ offerId ++ " not found")) ∧
      unlinkFromLocation db offerId locationId now fault =
        .error (.notFound ("Offer with id " ++ offerId ++ " not found"))) ∧
    (∀ offer, findOfferRec db offerId = some offer →
      findLocationRec db locationId = none →
      linkToLocation db offerId locationId now fault =
        .error (.notFound ("Location with id " ++ locationId ++ " not found")) ∧
      unlinkFromLocation db offerId locationId now fault =
        .error (.notFound ("Location with id " ++ locationId ++ " not found"))) ∧
    (∀ offer location, findOfferRec db offerId = some offer →
      findLocationRec db locationId = some location →
      location.brandId ≠ offer.brandId →
      linkToLocation db offerId locationId now fault =
        .error (.conflict "Cannot link offer to a location from a different brand") ∧
      unlinkFromLocation db offerId locationId now fault =
        .error (.conflict "Cannot unlink offer from a location from a different brand")) ∧
    (∀ offer location, findOfferRec db offerId = some offer →
      findLocationRec db locationId = some location →
      location.brandId = offer.brandId →
      hasItem location.offerIds offerId = true →
      linkToLocation db offerId locationId now fault =
        .error (.conflict ("Offer " ++ offerId ++ " is already linked to this location"))) ∧
    (∀ offer location, findOfferRec db offerId = some offer →
      findLocationRec db locationId = some location →
      location.brandId = offer.brandId →
      hasItem location.offerIds offerId = false →
      unlinkFromLocation db offerId locationId now fault =
        .error (.notFound ("Offer " ++ offerId ++ " is not linked to this location"))) := by
  refine ⟨?_, ?_, ?_, ?_, ?_⟩
  · intro h
    constructor <;> simp [linkToLocation, unlinkFromLocation, h]
  · intro offer hfo hfl
    constructor <;> simp [linkToLocation, unlinkFromLocation, hfo, hfl]
  · intro offer location hfo hfl hb
    constructor <;>
      simp [linkToLocation, unlinkFromLocation, hfo, hfl, bne_iff_ne, hb]
  · intro offer location hfo hfl hb hhas
    simp [linkToLocation, hfo, hfl, hb, hhas]
  · intro offer location hfo hfl hb hhas
    simp [unlinkFromLocation, hfo, hfl, hb, hhas]

/-- Witness for C4: in the concrete store, a link naming the absent offer
`o2` fails with the offer-not-found error. -/
theorem C4_read_precondition_failures_witness :
    findOfferRec dbW "o2" = none ∧
    linkToLocation dbW "o2" "L1" "t1" none =
      .error (.notFound ("Offer with id " ++ "o2" ++ " not found")) :=
  ⟨by rfl,
    ((C4_read_precondition_failures dbW "o2" "L1" "t1" none).1 (by rfl)).1⟩

/-! Section: Claim C5: write-time condition failures and other store errors -/

/-- C5: when the store cancels the transaction (it raises
`TransactionCanceledException`, whether from this model's condition
evaluation with `fault = none` or from an injected store error of that
name), `linkToLocation` reports Conflict ("already linked") and
`unlinkFromLocation` reports NotFound ("not linked") — the translation
depends on the operation in flight; any other store error is re-thrown
unchanged. -/
theorem C5_store_error_translation (db : Db) (offerId locationId now : String)
    (offer : OfferRec) (location : LocationRec)
    (hfo : findOfferRec db offerId = some offer)
    (hfl : findLocationRec db locationId = some location)
    (hb : location.brandId = offer.brandId) :
    (hasItem location.offerIds offerId = false →
      linkTransactWrite db offerId locationId now = none →
      linkToLocation db offerId locationId now none =
        .error (.conflict ("Offer " ++ offerId ++ " is already linked to location " ++ locationId))) ∧
    (∀ e : StoreError, e.name = "TransactionCanceledException" →
      hasItem location.offerIds offerId = false →
      linkToLocation db offerId locationId now (some e) =
        .error (.conflict ("Offer " ++ offerId ++ " is already linked to location " ++ locationId))) ∧
    (∀ e : StoreError, e.name ≠ "TransactionCanceledException" →
      hasItem location.offerIds offerId = false →
      linkToLocation db offerId locationId now (some e) = .error (.store e)) ∧
    (hasItem location.offerIds offerId = true →
      unlinkTransactWrite db offerId locationId now
        (decide (0 < offerIdsFilterLen location.offerIds offerId)) = none →
      unlinkFromLocation db offerId locationId now none =
        .error (.notFound ("Offer " ++ offerId ++ " is not linked to location " ++ locationId))) ∧
    (∀ e : StoreError, e.name = "TransactionCanceledException" →
      hasItem location.offerIds offerId = true →
      unlinkFromLocation db offerId locationId now (some e) =
        .error (.notFound ("Offer " ++ offerId ++ " is not linked to location " ++ locationId))) ∧
    (∀ e : StoreError, e.name ≠ "TransactionCanceledException" →
      hasItem location.offerIds offerId = true →
      unlinkFromLocation db offerId locationId now (some e) = .error (.store e)) := by
  refine ⟨?_, ?_, ?_, ?_, ?_, ?_⟩
  · intro hhas htx
    simp [linkToLocation, hfo, hfl, hb, hhas, htx]
  · intro e he hhas
    simp [linkToLocation, hfo, hfl, hb, hhas, he]
  · intro e he hhas
    simp [linkToLocation, hfo, hfl, hb, hhas, he]
  · intro hhas htx
    simp [unlinkFromLocation, hfo, hfl, hb, hhas, htx]
  · intro e he hhas
    simp [unlinkFromLocation, hfo, hfl, hb, hhas, he]
  · intro e he hhas
    simp [unlinkFromLocation, hfo, hfl, hb, hhas, he]

/-- Witness for C5: an injected store error that is not a
`TransactionCanceledException` is re-thrown unchanged by `linkToLocation`
on the concrete store. -/
theorem C5_store_error_translation_witness :
    findOfferRec dbW "o1" = some oW ∧
    linkToLocation dbW "o1" "L1" "t1" (some { name := "ServiceUnavailable" }) =
      .error (.store { name := "ServiceUnavailable" }) :=
  ⟨by rfl,
    ((C5_store_error_translation dbW "o1" "L1" "t1" oW lW (by rfl) (by rfl)
      (by rfl)).2.2.1 { name := "ServiceUnavailable" } (by decide) (by rfl))⟩

/-! Section: Claim C10: `hasItem` over the three collection shapes -/

/-- C10: `hasItem` is total over the three runtime shapes of the linked-id
collection and decides membership (false when the collection is absent);
consequently `linkToLocation` on a location whose `offerIds` attribute is
absent never fails the read-time "already linked" check, while
`unlinkFromLocation` on such a location fails with NotFound. -/
theorem C10_hasItem_duck_typing (db : Db) (offerId locationId now : String)
    (offer : OfferRec) (location : LocationRec)
    (hfo : findOfferRec db offerId = some offer)
    (hfl : findLocationRec db locationId = some location)
    (hb : location.brandId = offer.brandId)
    (hu : location.offerIds = .undef) :
    (∀ c item, hasItem c item = true ↔ collMem c item) ∧
    (osetContains offer.locationIds locationId = false →
      ∃ db' r, linkToLocation db offerId locationId now none = .ok (db', r)) ∧
    (∀ fault, unlinkFromLocation db offerId locationId now fault =
      .error (.notFound ("Offer " ++ offerId ++ " is not linked to this location"))) := by
  have hhas : hasItem location.offerIds offerId = false := by
    rw [hu]; rfl
  refine ⟨hasItem_iff_collMem, ?_, ?_⟩
  · intro hoc
    have htx : linkTransactWrite db offerId locationId now =
        some { db with
          locations := updateById (fun l => l.id) db.locations locationId
            (linkLocUpd (.set {offerId}) now),
          offers := updateById (fun o => o.id) db.offers offerId
            (linkOfferUpd offer locationId now) } := by
      simp only [linkTransactWrite, hfl, hfo, hu, collAttributeExists,
        Bool.false_and, Bool.false_eq_true, if_false, hoc, collAdd]
      rfl
    refine ⟨{ db with
        locations := updateById (fun l => l.id) db.locations locationId
          (linkLocUpd (.set {offerId}) now),
        offers := updateById (fun o => o.id) db.offers offerId
          (linkOfferUpd offer locationId now) },
      linkOfferUpd offer locationId now offer, ?_⟩
    simp [linkToLocation, hfo, hfl, hb, hhas, htx, linkOfferUpd]
  · intro fault
    simp [unlinkFromLocation, hfo, hfl, hb, hhas]

/-- Witness for C10: the fresh location `L1` (absent `offerIds`) makes
unlink fail NotFound while link does not report "already linked". -/
theorem C10_hasItem_duck_typing_witness :
    lW.offerIds = .undef ∧
    unlinkFromLocation dbW "o1" "L1" "t1" none =
      .error (.notFound ("Offer " ++ "o1" ++ " is not linked to this location")) :=
  ⟨by rfl,
    (C10_hasItem_duck_typing dbW "o1" "L1" "t1" oW lW (by rfl) (by rfl)
      (by rfl) (by rfl)).2.2 none⟩

/-! Section: Claim C3: the counting invariants are preserved -/

theorem linkOfferUpd_inv (offer x : OfferRec) (locationId now : String)
    (hinv : offerInv offer)
    (hnm : osetContains offer.locationIds locationId = false) :
    offerInv (linkOfferUpd offer locationId now x) := by
  show offer.locationsTotal + 1 =
    (((some (insert locationId (offer.locationIds.getD ∅))).getD ∅).card : Int)
  rw [Option.getD_some]
  have hmem : locationId ∉ offer.locationIds.getD ∅ := by
    cases ho : offer.locationIds with
    | none => simp
    | some s =>
      rw [ho] at hnm
      simpa [osetContains] using hnm
  rw [Finset.card_insert_of_not_mem hmem]
  rw [offerInv] at hinv
  omega

theorem unlinkOfferUpd_inv (offer x : OfferRec) (locationId now : String)
    (hinv : offerInv offer)
    (hcont : osetContains offer.locationIds locationId = true) :
    offerInv (unlinkOfferUpd offer locationId now x) := by
  obtain ⟨t, ht, hmem⟩ : ∃ t, offer.locationIds = some t ∧ locationId ∈ t := by
    cases ho : offer.locationIds with
    | none => rw [ho] at hcont; simp [osetContains] at hcont
    | some s =>
      rw [ho] at hcont
      exact ⟨s, rfl, by simpa [osetContains] using hcont⟩
  show offer.locationsTotal - 1 =
    (((osetDelete offer.locationIds locationId).getD ∅).card : Int)
  rw [offerInv, ht] at hinv
  rw [ht]
  have hcard : (t.erase locationId).card = t.card - 1 :=
    Finset.card_erase_of_mem hmem
  have hpos : 0 < t.card := Finset.card_pos.mpr ⟨locationId, hmem⟩
  simp only [osetDelete]
  by_cases he : t.erase locationId = ∅
  · rw [if_pos he]
    have : (t.erase locationId).card = 0 := by rw [he]; rfl
    simp only [Option.getD_none]
    rw [Option.getD_some] at hinv
    simp only [Finset.card_empty]
    omega
  · rw [if_neg he]
    rw [Option.getD_some] at hinv
    rw [Option.getD_some, hcard]
    omega

theorem collNonempty_collDelete (s : Finset String) (v : String)
    {c' : Coll} (hdel : collDelete (.set s) v = some c') :
    collNonempty c' = decide (s.erase v ≠ ∅) := by
  simp only [collDelete, Option.some.injEq] at hdel
  subst hdel
  by_cases he : s.erase v = ∅
  · rw [if_pos he]; simp [collNonempty, he]
  · rw [if_neg he]; simp [collNonempty, he]

theorem collNonempty_collAdd (c : Coll) (v : String)
    {c' : Coll} (hadd : collAdd c v = some c') :
    collNonempty c' = true := by
  cases c with
  | undef =>
    simp only [collAdd, Option.some.injEq] at hadd
    subst hadd
    simp [collNonempty, Finset.insert_ne_empty]
  | set s =>
    simp only [collAdd, Option.some.injEq] at hadd
    subst hadd
    simp [collNonempty, Finset.insert_ne_empty]
  | arr l => simp [collAdd] at hadd

theorem link_preserves_dbInv {db : Db} {offerId locationId now : String}
    {fault : Option StoreError} {db' : Db} {ret : OfferRec}
    (hinv : dbInv db)
    (h : linkToLocation db offerId locationId now fault = .ok (db', ret)) :
    dbInv db' ∧ offerInv ret := by
  obtain ⟨offer, location, newOfferIds, hfo, hfl, hbrand, hhas, hfault, hc2,
    hadd, hbr, hlocs, hoffs, hret⟩ := linkToLocation_ok_elim h
  have hoffmem : offer ∈ db.offers := List.mem_of_find?_eq_some hfo
  have hoinv : offerInv offer := hinv.1 offer hoffmem
  have hupd : ∀ x : OfferRec, offerInv (linkOfferUpd offer locationId now x) :=
    fun x => linkOfferUpd_inv offer x locationId now hoinv hc2
  refine ⟨⟨?_, ?_⟩, ?_⟩
  · intro y hy
    rw [hoffs] at hy
    obtain ⟨x, hx, hxy⟩ := mem_updateById _ _ _ _ _ hy
    by_cases hxid : (x.id == offerId) = true
    · rw [if_pos hxid] at hxy
      rw [hxy]
      exact hupd x
    · rw [if_neg hxid] at hxy
      rw [hxy]
      exact hinv.1 x hx
  · intro y hy
    rw [hlocs] at hy
    obtain ⟨x, hx, hxy⟩ := mem_updateById _ _ _ _ _ hy
    by_cases hxid : (x.id == locationId) = true
    · rw [if_pos hxid] at hxy
      rw [hxy]
      show true = collNonempty newOfferIds
      exact (collNonempty_collAdd _ _ hadd).symm
    · rw [if_neg hxid] at hxy
      rw [hxy]
      exact hinv.2 x hx
  · rw [hret]
    exact hupd offer

theorem unlink_preserves_dbInv {db : Db} {offerId locationId now : String}
    {fault : Option StoreError} {db' : Db} {ret : OfferRec}
    (hinv : dbInv db)
    (h : unlinkFromLocation db offerId locationId now fault = .ok (db', ret)) :
    dbInv db' ∧ offerInv ret := by
  obtain ⟨offer, location, newOfferIds, hfo, hfl, hbrand, hhas, hfault, hpos,
    hcont, hdel, hbr, hlocs, hoffs, hret⟩ := unlinkFromLocation_ok_elim h
  have hoffmem : offer ∈ db.offers := List.mem_of_find?_eq_some hfo
  have hoinv : offerInv offer := hinv.1 offer hoffmem
  obtain ⟨s, hs⟩ : ∃ s, location.offerIds = .set s := by
    cases hoi : location.offerIds with
    | undef => rw [hoi] at hhas; simp [hasItem] at hhas
    | set s => exact ⟨s, rfl⟩
    | arr l => rw [hoi] at hdel; simp [collDelete] at hdel
  have hupd : ∀ x : OfferRec, offerInv (unlinkOfferUpd offer locationId now x) :=
    fun x => unlinkOfferUpd_inv offer x locationId now hoinv hcont
  obtain ⟨t, ht, htmem⟩ : ∃ t, offer.locationIds = some t ∧ locationId ∈ t := by
    cases ho : offer.locationIds with
    | none => rw [ho] at hcont; simp [osetContains] at hcont
    | some u =>
      rw [ho] at hcont
      exact ⟨u, rfl, by simpa [osetContains] using hcont⟩
  refine ⟨⟨?_, ?_⟩, ?_⟩
  · intro y hy
    rw [hoffs] at hy
    obtain ⟨x, hx, hxy⟩ := mem_updateById _ _ _ _ _ hy
    by_cases hxid : (x.id == offerId) = true
    · rw [if_pos hxid] at hxy
      rw [hxy]
      exact hupd x
    · rw [if_neg hxid] at hxy
      rw [hxy]
      exact hinv.1 x hx
  · intro y hy
    rw [hlocs] at hy
    obtain ⟨x, hx, hxy⟩ := mem_updateById _ _ _ _ _ hy
    by_cases hxid : (x.id == locationId) = true
    · rw [if_pos hxid] at hxy
      rw [hxy]
      show decide (0 < offerIdsFilterLen location.offerIds offerId) =
        collNonempty newOfferIds
      rw [hs] at hdel ⊢
      rw [hasOfferNew_set_eq, collNonempty_collDelete s offerId hdel]
    · rw [if_neg hxid] at hxy
      rw [hxy]
      exact hinv.2 x hx
  · rw [hret]
    show max 0 (offer.locationsTotal - 1) =
      (((if (offer.locationIds.getD ∅).erase locationId = ∅ then none
         else some ((offer.locationIds.getD ∅).erase locationId)).getD
            (∅ : Finset String)).card : Int)
    rw [offerInv, ht, Option.getD_some] at hoinv
    rw [ht, Option.getD_some]
    have hcard : (t.erase locationId).card = t.card - 1 :=
      Finset.card_erase_of_mem htmem
    have hp : 0 < t.card := Finset.card_pos.mpr ⟨locationId, htmem⟩
    by_cases he : t.erase locationId = ∅
    · rw [if_pos he]
      have : (t.erase locationId).card = 0 := by rw [he]; rfl
      simp only [Option.getD_none, Finset.card_empty]
      omega
    · rw [if_neg he, Option.getD_some, hcard]
      omega

theorem dbInv_applyLinkOp (db : Db) (op : LinkOp) (hinv : dbInv db) :
    dbInv (applyLinkOp db op) := by
  cases op with
  | link offerId locationId now fault =>
    show dbInv (match linkToLocation db offerId locationId now fault with
      | .ok (db', _) => db' | .error _ => db)
    cases h : linkToLocation db offerId locationId now fault with
    | ok p =>
      have h' : linkToLocation db offerId locationId now fault = .ok (p.1, p.2) := by
        rw [h]
      exact (link_preserves_dbInv hinv h').1
    | error e => exact hinv
  | unlink offerId locationId now fault =>
    show dbInv (match unlinkFromLocation db offerId locationId now fault with
      | .ok (db', _) => db' | .error _ => db)
    cases h : unlinkFromLocation db offerId locationId now fault with
    | ok p =>
      have h' : unlinkFromLocation db offerId locationId now fault = .ok (p.1, p.2) := by
        rw [h]
      exact (unlink_preserves_dbInv hinv h').1
    | error e => exact hinv

/-- C3: starting from a store where every offer satisfies
`locationsTotal = |locationIds|` and every location satisfies
`hasOffer = (offerIds non-empty)`, both invariants still hold after any
sequence of `linkToLocation`/`unlinkFromLocation` calls (succeeding or
failing, with any injected store faults), and each successful call's
returned `Offer` value satisfies the offer invariant as well. -/
theorem C3_invariants_preserved :
    (∀ (db : Db) (ops : List LinkOp), dbInv db → dbInv (runLinkOps db ops)) ∧
    (∀ (db : Db) (offerId locationId now : String) (fault : Option StoreError)
        (db' : Db) (ret : OfferRec), dbInv db →
      linkToLocation db offerId locationId now fault = .ok (db', ret) →
      dbInv db' ∧ offerInv ret) ∧
    (∀ (db : Db) (offerId locationId now : String) (fault : Option StoreError)
        (db' : Db) (ret : OfferRec), dbInv db →
      unlinkFromLocation db offerId locationId now fault = .ok (db', ret) →
      dbInv db' ∧ offerInv ret) := by
  refine ⟨?_, ?_, ?_⟩
  · intro db ops hinv
    induction ops generalizing db with
    | nil => exact hinv
    | cons op rest ih =>
      exact ih (applyLinkOp db op) (dbInv_applyLinkOp db op hinv)
  · intro db offerId locationId now fault db' ret hinv h
    exact link_preserves_dbInv hinv h
  · intro db offerId locationId now fault db' ret hinv h
    exact unlink_preserves_dbInv hinv h

/-- Witness for C3: the concrete store satisfies both invariants and keeps
them across a link followed by an unlink. -/
theorem C3_invariants_preserved_witness :
    dbInv dbW ∧
    dbInv (runLinkOps dbW [.link "o1" "L1" "t1" none, .unlink "o1" "L1" "t2" none]) :=
  ⟨by constructor <;> simp [dbW, oW, lW, offerInv, locationInv, collNonempty],
    C3_invariants_preserved.1 dbW [.link "o1" "L1" "t1" none, .unlink "o1" "L1" "t2" none]
      (by constructor <;> simp [dbW, oW, lW, offerInv, locationInv, collNonempty])⟩

/-! Section: Claim C6: link followed by unlink restores the pre-link state -/

/-- C6: for an offer and a location of the same brand that are not linked,
a successful `linkToLocation` followed by a successful
`unlinkFromLocation` (no interleaved operations) returns the offer to its
pre-link `locationsTotal` and `locationIds` and the location to its
pre-link `hasOffer` and `offerIds`, both in the persisted records and in
the offer value the unlink call returns.  The store is assumed well-formed:
no empty set attributes, and `hasOffer` consistent with `offerIds`. -/
theorem C6_link_unlink_roundtrip (db : Db) (offerId locationId now1 now2 : String)
    (f1 f2 : Option StoreError) (db1 db2 : Db) (ret1 ret2 : OfferRec)
    (hne : noEmptySets db)
    (hlocinv : ∀ l ∈ db.locations, locationInv l)
    (h1 : linkToLocation db offerId locationId now1 f1 = .ok (db1, ret1))
    (h2 : unlinkFromLocation db1 offerId locationId now2 f2 = .ok (db2, ret2)) :
    ∃ offer location,
      findOfferRec db offerId = some offer ∧
      findLocationRec db locationId = some location ∧
      ret2.locationsTotal = offer.locationsTotal ∧
      ret2.locationIds = offer.locationIds ∧
      (∃ o', findOfferRec db2 offerId = some o' ∧
        o'.locationsTotal = offer.locationsTotal ∧
        o'.locationIds = offer.locationIds) ∧
      (∃ l', findLocationRec db2 locationId = some l' ∧
        l'.hasOffer = location.hasOffer ∧
        l'.offerIds = location.offerIds) := by
  obtain ⟨offer, location, newOfferIds, hfo, hfl, hbrand, hhas, hfault, hc2,
    hadd, hbr1, hlocs1, hoffs1, hret1⟩ := linkToLocation_ok_elim h1
  obtain ⟨offer2, location2, newOfferIds2, hfo2, hfl2, hbrand2, hhas2, hfault2,
    hpos2, hcont2, hdel2, hbr2, hlocs2, hoffs2, hret2⟩ :=
    unlinkFromLocation_ok_elim h2
  -- identify the records the unlink read with the post-link records
  have hfo1 : findOfferRec db1 offerId = some (linkOfferUpd offer locationId now1 offer) := by
    show (db1.offers).find? (fun o => o.id == offerId) = _
    rw [hoffs1, findOffer_updateById_self db.offers offerId
      (linkOfferUpd offer locationId now1) (fun x => rfl)]
    have : db.offers.find? (fun o => o.id == offerId) = some offer := hfo
    rw [this]; rfl
  have hfl1 : findLocationRec db1 locationId = some (linkLocUpd newOfferIds now1 location) := by
    show (db1.locations).find? (fun l => l.id == locationId) = _
    rw [hlocs1, findLocation_updateById_self db.locations locationId
      (linkLocUpd newOfferIds now1) (fun x => rfl)]
    have : db.locations.find? (fun l => l.id == locationId) = some location := hfl
    rw [this]; rfl
  have hoeq : offer2 = linkOfferUpd offer locationId now1 offer := by
    have := hfo2.symm.trans hfo1
    exact Option.some.inj this
  have hleq : location2 = linkLocUpd newOfferIds now1 location := by
    have := hfl2.symm.trans hfl1
    exact Option.some.inj this
  subst hoeq
  subst hleq
  -- the offer-side erase undoes the insert
  have hs0 : locationId ∉ offer.locationIds.getD ∅ := by
    cases ho : offer.locationIds with
    | none => simp
    | some s => rw [ho] at hc2; simpa [osetContains] using hc2
  have herase : (insert locationId (offer.locationIds.getD ∅)).erase locationId =
      offer.locationIds.getD ∅ := Finset.erase_insert hs0
  have hoback : (osetDelete (linkOfferUpd offer locationId now1 offer).locationIds
      locationId) = offer.locationIds := by
    show osetDelete (some (insert locationId (offer.locationIds.getD ∅))) locationId = _
    simp only [osetDelete, herase]
    cases ho : offer.locationIds with
    | none => simp
    | some s =>
      have hsne : s ≠ ∅ := by
        intro hcontra
        exact (hne.1 offer (List.mem_of_find?_eq_some hfo)) (by rw [ho, hcontra])
      simp [hsne]
  have htot2 : (linkOfferUpd offer locationId now1 offer).locationsTotal - 1 =
      offer.locationsTotal := by
    show offer.locationsTotal + 1 - 1 = offer.locationsTotal
    omega
  have htotpos : offer.locationsTotal ≥ 0 := by
    have h' : offer.locationsTotal + 1 > 0 := hpos2
    omega
  -- the location-side delete undoes the add
  have hlocinv0 : location.hasOffer = collNonempty location.offerIds :=
    hlocinv location (List.mem_of_find?_eq_some hfl)
  have hdel2' : collDelete newOfferIds offerId = some newOfferIds2 := hdel2
  have hlback : newOfferIds2 = location.offerIds ∧
      decide (0 < offerIdsFilterLen (linkLocUpd newOfferIds now1 location).offerIds offerId) =
        location.hasOffer := by
    show newOfferIds2 = location.offerIds ∧
      decide (0 < offerIdsFilterLen newOfferIds offerId) = location.hasOffer
    cases hoi : location.offerIds with
    | undef =>
      have ha : newOfferIds = .set {offerId} := by
        rw [hoi] at hadd
        simp only [collAdd, Option.some.injEq] at hadd
        exact hadd.symm
      have he : ({offerId} : Finset String).erase offerId = ∅ :=
        Finset.erase_insert (Finset.not_mem_empty offerId)
      rw [ha] at hdel2'
      have hd : newOfferIds2 = Coll.undef := by
        simp only [collDelete, he, eq_self_iff_true, if_true] at hdel2'
        exact (Option.some.inj hdel2').symm
      have hh : location.hasOffer = false := by
        rw [hoi] at hlocinv0
        simpa [collNonempty] using hlocinv0
      refine ⟨?_, ?_⟩
      · rw [hd]
      · rw [ha, hasOfferNew_set_eq, he, hh]
        simp
    | set s =>
      have ha : newOfferIds = .set (insert offerId s) := by
        rw [hoi] at hadd
        simp only [collAdd, Option.some.injEq] at hadd
        exact hadd.symm
      have hmem : offerId ∉ s := by
        rw [hoi] at hhas; simpa [hasItem] using hhas
      have hsne : s ≠ ∅ := by
        intro hcontra
        exact (hne.2 location (List.mem_of_find?_eq_some hfl)) (by rw [hoi, hcontra])
      have her : (insert offerId s).erase offerId = s := Finset.erase_insert hmem
      rw [ha] at hdel2'
      have hd : newOfferIds2 = Coll.set s := by
        simp only [collDelete, her] at hdel2'
        rw [if_neg hsne] at hdel2'
        exact (Option.some.inj hdel2').symm
      have hh : location.hasOffer = decide (s ≠ ∅) := by
        rw [hoi] at hlocinv0
        simpa [collNonempty] using hlocinv0
      refine ⟨?_, ?_⟩
      · rw [hd]
      · rw [ha, hasOfferNew_set_eq, her, hh]
    | arr l =>
      rw [hoi] at hadd
      simp [collAdd] at hadd
  refine ⟨offer, location, hfo, hfl, ?_, ?_, ?_, ?_⟩
  · rw [hret2]
    show max 0 ((linkOfferUpd offer locationId now1 offer).locationsTotal - 1) =
      offer.locationsTotal
    rw [htot2]
    omega
  · rw [hret2]
    show (if ((linkOfferUpd offer locationId now1 offer).locationIds.getD ∅).erase
        locationId = ∅ then none
      else some (((linkOfferUpd offer locationId now1 offer).locationIds.getD ∅).erase
        locationId)) = offer.locationIds
    have : ((linkOfferUpd offer locationId now1 offer).locationIds.getD ∅) =
        insert locationId (offer.locationIds.getD ∅) := rfl
    rw [this, herase]
    cases ho : offer.locationIds with
    | none => simp
    | some s =>
      have hsne : s ≠ ∅ := by
        intro hcontra
        exact (hne.1 offer (List.mem_of_find?_eq_some hfo)) (by rw [ho, hcontra])
      simp [hsne]
  · refine ⟨unlinkOfferUpd (linkOfferUpd offer locationId now1 offer) locationId now2
      (linkOfferUpd offer locationId now1 offer), ?_, htot2, hoback⟩
    show (db2.offers).find? (fun o => o.id == offerId) = _
    rw [hoffs2, findOffer_updateById_self db1.offers offerId
      (unlinkOfferUpd (linkOfferUpd offer locationId now1 offer) locationId now2)
      (fun x => rfl)]
    have : db1.offers.find? (fun o => o.id == offerId) =
        some (linkOfferUpd offer locationId now1 offer) := hfo1
    rw [this]; rfl
  · refine ⟨unlinkLocUpd newOfferIds2
      (decide (0 < offerIdsFilterLen (linkLocUpd newOfferIds now1 location).offerIds offerId))
      now2 (linkLocUpd newOfferIds now1 location), ?_, hlback.2, hlback.1⟩
    show (db2.locations).find? (fun l => l.id == locationId) = _
    rw [hlocs2, findLocation_updateById_self db1.locations locationId
      (unlinkLocUpd newOfferIds2
        (decide (0 < offerIdsFilterLen (linkLocUpd newOfferIds now1 location).offerIds offerId))
        now2)
      (fun x => rfl)]
    have : db1.locations.find? (fun l => l.id == locationId) =
        some (linkLocUpd newOfferIds now1 location) := hfl1
    rw [this]; rfl

/-- Witness for C6: the concrete link-then-unlink pair on `dbW`. -/
theorem C6_link_unlink_roundtrip_witness :
    linkToLocation dbW "o1" "L1" "t1" none = .ok (dbW1, oW1) ∧
    unlinkFromLocation dbW1 "o1" "L1" "t2" none = .ok (dbW2, oW2) ∧
    (∃ offer location,
      findOfferRec dbW "o1" = some offer ∧
      findLocationRec dbW "L1" = some location ∧
      oW2.locationsTotal = offer.locationsTotal ∧
      oW2.locationIds = offer.locationIds ∧
      (∃ o', findOfferRec dbW2 "o1" = some o' ∧
        o'.locationsTotal = offer.locationsTotal ∧
        o'.locationIds = offer.locationIds) ∧
      (∃ l', findLocationRec dbW2 "L1" = some l' ∧
        l'.hasOffer = location.hasOffer ∧
        l'.offerIds = location.offerIds)) :=
  ⟨by rfl, by rfl,
    C6_link_unlink_roundtrip dbW "o1" "L1" "t1" "t2" none none dbW1 dbW2 oW1 oW2
      ⟨by simp [dbW, oW], by simp [dbW, lW]⟩
      (by
        intro l hl
        simp only [dbW, List.mem_singleton] at hl
        rw [hl]
        simp [lW, locationInv, collNonempty])
      (by rfl) (by rfl)⟩

/-! Section: Claim C8: plain updates never touch the link fields -/

theorem find?_updateById_key {α : Type} (idOf : α → String) (l : List α)
    (key : String) (f : α → α) (hf : ∀ x, idOf x = key → idOf (f x) = key) :
    (updateById idOf l key f).find? (fun x => idOf x == key) =
      (l.find? (fun x => idOf x == key)).map f := by
  induction l with
  | nil => rfl
  | cons a t ih =>
    simp only [updateById, List.map_cons]
    by_cases ha : idOf a = key
    · rw [if_pos (by simpa using ha)]
      rw [List.find?_cons_of_pos _ (by simp [hf a ha]),
        List.find?_cons_of_pos _ (by simp [ha])]
      rfl
    · rw [if_neg (by simpa using ha)]
      rw [List.find?_cons_of_neg _ (by simp [ha]),
        List.find?_cons_of_neg _ (by simp [ha])]
      simpa [updateById] using ih

theorem findOffer_put_self (db : Db) (o : OfferRec) (offer : OfferRec)
    (hfo : findOfferRec db o.id = some offer) :
    findOfferRec (putOffer db o) o.id = some o := by
  have hmem : offer ∈ db.offers := List.mem_of_find?_eq_some hfo
  have hid : offer.id = o.id := by
    have := List.find?_some hfo
    simpa using this
  have hany : db.offers.any (fun x => x.id == o.id) = true :=
    List.any_eq_true.mpr ⟨offer, hmem, by simp [hid]⟩
  show (putOffer db o).offers.find? (fun x => x.id == o.id) = some o
  rw [putOffer, if_pos hany]
  show (updateById (fun x => x.id) db.offers o.id (fun _ => o)).find?
    (fun x => x.id == o.id) = some o
  rw [find?_updateById_key (fun x => x.id) db.offers o.id (fun _ => o)
    (fun x _ => rfl)]
  have : db.offers.find? (fun x => x.id == o.id) = some offer := hfo
  rw [this]; rfl

theorem findLocation_put_self (db : Db) (l : LocationRec) (location : LocationRec)
    (hfl : findLocationRec db l.id = some location) :
    findLocationRec (putLocation db l) l.id = some l := by
  have hmem : location ∈ db.locations := List.mem_of_find?_eq_some hfl
  have hid : location.id = l.id := by
    have := List.find?_some hfl
    simpa using this
  have hany : db.locations.any (fun x => x.id == l.id) = true :=
    List.any_eq_true.mpr ⟨location, hmem, by simp [hid]⟩
  show (putLocation db l).locations.find? (fun x => x.id == l.id) = some l
  rw [putLocation, if_pos hany]
  show (updateById (fun x => x.id) db.locations l.id (fun _ => l)).find?
    (fun x => x.id == l.id) = some l
  rw [find?_updateById_key (fun x => x.id) db.locations l.id (fun _ => l)
    (fun x _ => rfl)]
  have : db.locations.find? (fun x => x.id == l.id) = some location := hfl
  rw [this]; rfl

/-- C8: outside the atomic link/unlink transaction, the only writers of
offer and location records are the `update` service methods, whose DTOs
admit only `name`/`description` (offer) and `name`/`address` (location);
whenever they succeed, the record written back carries `locationIds` and
`locationsTotal` (resp. `offerIds` and `hasOffer`) exactly equal to the
values read, for every DTO. -/
theorem C8_update_preserves_link_fields (db : Db) (id now : String) :
    (∀ (dto : UpdateOfferDto) (db' : Db) (ret : OfferRec),
      offersUpdate db id dto now = .ok (db', ret) →
      ∃ offer, findOfferRec db id = some offer ∧
        ret.locationIds = offer.locationIds ∧
        ret.locationsTotal = offer.locationsTotal ∧
        findOfferRec db' id = some ret) ∧
    (∀ (dto : UpdateLocationDto) (db' : Db) (ret : LocationRec),
      locationsUpdate db id dto now = .ok (db', ret) →
      ∃ location, findLocationRec db id = some location ∧
        ret.offerIds = location.offerIds ∧
        ret.hasOffer = location.hasOffer ∧
        findLocationRec db' id = some ret) := by
  constructor
  · intro dto db' ret h
    unfold offersUpdate at h
    split at h
    · exact absurd h (by simp)
    rename_i offer hfo
    split at h
    · exact absurd h (by simp)
    simp only [Except.ok.injEq, Prod.mk.injEq] at h
    have hid : offer.id = id := by
      have := List.find?_some hfo
      simpa using this
    have hrid : ret.id = id := by rw [← h.2]; exact hid
    refine ⟨offer, hfo, ?_, ?_, ?_⟩
    · rw [← h.2]
    · rw [← h.2]
    · rw [← h.1, h.2, ← hrid]
      exact findOffer_put_self db ret offer (by rw [hrid]; exact hfo)
  · intro dto db' ret h
    unfold locationsUpdate at h
    split at h
    · exact absurd h (by simp)
    rename_i location hfl
    split at h
    · exact absurd h (by simp)
    simp only [Except.ok.injEq, Prod.mk.injEq] at h
    have hid : location.id = id := by
      have := List.find?_some hfl
      simpa using this
    have hrid : ret.id = id := by rw [← h.2]; exact hid
    refine ⟨location, hfl, ?_, ?_, ?_⟩
    · rw [← h.2]
    · rw [← h.2]
    · rw [← h.1, h.2, ← hrid]
      exact findLocation_put_self db ret location (by rw [hrid]; exact hfl)

/-- Witness for C8: renaming offer `o1` keeps its link fields. -/
theorem C8_update_preserves_link_fields_witness :
    offersUpdate dbW "o1" { name := some "New", description := none } "t1" =
      .ok (putOffer dbW { oW with name := "New", updatedAt := "t1" },
        { oW with name := "New", updatedAt := "t1" }) ∧
    (∃ offer, findOfferRec dbW "o1" = some offer ∧
      ({ oW with name := "New", updatedAt := "t1" } : OfferRec).locationIds = offer.locationIds ∧
      ({ oW with name := "New", updatedAt := "t1" } : OfferRec).locationsTotal = offer.locationsTotal ∧
      findOfferRec (putOffer dbW { oW with name := "New", updatedAt := "t1" }) "o1" =
        some { oW with name := "New", updatedAt := "t1" }) :=
  ⟨by rfl,
    (C8_update_preserves_link_fields dbW "o1" "t1").1
      { name := some "New", description := none }
      (putOffer dbW { oW with name := "New", updatedAt := "t1" })
      { oW with name := "New", updatedAt := "t1" } (by rfl)⟩

/-! Section: Claim C9: location name uniqueness is case-insensitive per brand -/

/-- C9: `LocationsService.create` scopes name uniqueness by
`(brandId, nameLower)`: when the brand already has a location whose stored
`nameLower` is the lower-casing of its name and agrees with the
lower-casing of the new name (the names differ only in letter case), the
create fails with Conflict; when it succeeds, the stored record carries the
derived `nameLower` key. -/
theorem C9_location_name_ci_unique (db : Db) (dto : CreateLocationDto)
    (newId now : String) (brand : BrandRec)
    (hbrand : findBrandRec db dto.brandId = some brand) :
    (∀ existing ∈ db.locations, existing.brandId = dto.brandId →
      existing.nameLower = jsToLower existing.name →
      jsToLower existing.name = jsToLower dto.name →
      locationsCreateCI db dto newId now =
        .error (.conflict ("Location with name \"" ++ dto.name ++
          "\" already exists for this brand"))) ∧
    (∀ (db' : Db) (loc : LocationRec),
      locationsCreateCI db dto newId now = .ok (db', loc) →
      loc.nameLower = jsToLower dto.name ∧ loc.id = newId ∧
      loc.brandId = dto.brandId ∧ loc.name = dto.name ∧
      loc.hasOffer = false ∧ loc.offerIds = .undef) := by
  constructor
  · intro existing hmem hbid hlow hcase
    have hfound : (db.locations.find? (fun l =>
        l.brandId == dto.brandId && l.nameLower == jsToLower dto.name)).isSome := by
      rw [List.find?_isSome]
      exact ⟨existing, hmem, by simp [hbid, hlow.trans hcase]⟩
    obtain ⟨w, hw⟩ := Option.isSome_iff_exists.mp hfound
    simp [locationsCreateCI, hbrand, hw]
  · intro db' loc h
    cases hfind : db.locations.find? (fun l =>
        l.brandId == dto.brandId && l.nameLower == jsToLower dto.name) with
    | some w =>
      have hcontra : locationsCreateCI db dto newId now =
          .error (.conflict ("Location with name \"" ++ dto.name ++
            "\" already exists for this brand")) := by
        simp [locationsCreateCI, hbrand, hfind]
      rw [hcontra] at h
      exact absurd h (by simp)
    | none =>
      have hok : locationsCreateCI db dto newId now =
          .ok (putLocation db
            { id := newId, brandId := dto.brandId, name := dto.name,
              nameLower := jsToLower dto.name, address := dto.address,
              offerIds := .undef, hasOffer := false,
              createdAt := now, updatedAt := now },
            { id := newId, brandId := dto.brandId, name := dto.name,
              nameLower := jsToLower dto.name, address := dto.address,
              offerIds := .undef, hasOffer := false,
              createdAt := now, updatedAt := now }) := by
        simp [locationsCreateCI, hbrand, hfind]
      rw [hok] at h
      simp only [Except.ok.injEq, Prod.mk.injEq] at h
      rw [← h.2]
      exact ⟨rfl, rfl, rfl, rfl, rfl, rfl⟩

/-- Witness for C9: creating "MAIN ST" under the same brand fails with the
Conflict error. -/
theorem C9_location_name_ci_unique_witness :
    locationsCreateCI dbB { brandId := "b1", name := "MAIN ST", address := "x" }
        "L3" "t1" =
      .error (.conflict ("Location with name \"" ++ "MAIN ST" ++
        "\" already exists for this brand")) :=
  (C9_location_name_ci_unique dbB
      { brandId := "b1", name := "MAIN ST", address := "x" } "L3" "t1" bW
      (by rfl)).1 lX (by simp [dbB]) (by rfl) (by rfl) (by rfl)

/-! Section: Claim C7: referential soundness of `offerIds` -/

theorem collContains_eq_mem (c : Coll) (v : String) :
    collContains c v = true ↔ v ∈ collElems c := by
  cases c <;> simp [collContains, collElems]

theorem collElems_collAdd {c c' : Coll} {v : String}
    (h : collAdd c v = some c') : collElems c' = insert v (collElems c) := by
  cases c with
  | undef =>
    simp only [collAdd, Option.some.injEq] at h
    subst h
    simp [collElems]
  | set s =>
    simp only [collAdd, Option.some.injEq] at h
    subst h
    simp [collElems]
  | arr l => simp [collAdd] at h

theorem collElems_collDelete {c c' : Coll} {v : String}
    (h : collDelete c v = some c') : collElems c' = (collElems c).erase v := by
  cases c with
  | undef =>
    simp only [collDelete, Option.some.injEq] at h
    subst h
    simp [collElems]
  | set s =>
    simp only [collDelete, Option.some.injEq] at h
    subst h
    by_cases he : s.erase v = ∅
    · rw [if_pos he]
      simp [collElems, he]
    · rw [if_neg he]
      simp [collElems]
  | arr l => simp [collDelete] at h

theorem isLinkedB_intro {db : Db} {oid lid : String} {o : OfferRec}
    {l : LocationRec} (ho : findOfferRec db oid = some o)
    (hl : findLocationRec db lid = some l)
    (hc : collContains l.offerIds oid = true)
    (hos : osetContains o.locationIds lid = true) :
    isLinkedB db oid lid = true := by
  simp [isLinkedB, ho, hl, hc, hos]

theorem isLinkedB_elim {db : Db} {oid lid : String}
    (h : isLinkedB db oid lid = true) :
    ∃ o l, findOfferRec db oid = some o ∧ findLocationRec db lid = some l ∧
      collContains l.offerIds oid = true ∧ osetContains o.locationIds lid = true := by
  cases ho : findOfferRec db oid with
  | none => simp [isLinkedB, ho] at h
  | some o =>
    cases hl : findLocationRec db lid with
    | none => simp [isLinkedB, ho, hl] at h
    | some l =>
      simp only [isLinkedB, ho, hl, Bool.and_eq_true] at h
      exact ⟨o, l, rfl, rfl, h.1, h.2⟩

theorem hasItem_false_not_mem {c : Coll} {v : String}
    (h : hasItem c v = false) : v ∉ collElems c := by
  intro hmem
  rw [hasItem_eq_collContains] at h
  rw [← collContains_eq_mem] at hmem
  rw [h] at hmem
  exact absurd hmem (by simp)

theorem link_preserves_offerIdsSound {db : Db} {offerId locationId now : String}
    {fault : Option StoreError} {db' : Db} {ret : OfferRec}
    (hs : offerIdsSound db)
    (h : linkToLocation db offerId locationId now fault = .ok (db', ret)) :
    offerIdsSound db' := by
  obtain ⟨offer, location, newOfferIds, hfo, hfl, hbrand, hhas, hfault, hc2,
    hadd, hbr, hlocs, hoffs, hret⟩ := linkToLocation_ok_elim h
  have hlid : location.id = locationId := by
    have := List.find?_some hfl
    simpa using this
  have hfo' : findOfferRec db' offerId = some (linkOfferUpd offer locationId now offer) := by
    show (db'.offers).find? (fun o => o.id == offerId) = _
    rw [hoffs, findOffer_updateById_self db.offers offerId
      (linkOfferUpd offer locationId now) (fun x => rfl)]
    have : db.offers.find? (fun o => o.id == offerId) = some offer := hfo
    rw [this]; rfl
  have hfl' : findLocationRec db' locationId = some (linkLocUpd newOfferIds now location) := by
    show (db'.locations).find? (fun l => l.id == locationId) = _
    rw [hlocs, findLocation_updateById_self db.locations locationId
      (linkLocUpd newOfferIds now) (fun x => rfl)]
    have : db.locations.find? (fun l => l.id == locationId) = some location := hfl
    rw [this]; rfl
  have hfoNe : ∀ oid, oid ≠ offerId → findOfferRec db' oid = findOfferRec db oid := by
    intro oid hoid
    show (db'.offers).find? (fun o => o.id == oid) = (db.offers).find? (fun o => o.id == oid)
    rw [hoffs, findOffer_updateById_ne db.offers offerId oid
      (linkOfferUpd offer locationId now) (fun x => rfl) hoid]
  have hflNe : ∀ lid, lid ≠ locationId → findLocationRec db' lid = findLocationRec db lid := by
    intro lid hlid2
    show (db'.locations).find? (fun l => l.id == lid) = (db.locations).find? (fun l => l.id == lid)
    rw [hlocs, findLocation_updateById_ne db.locations locationId lid
      (linkLocUpd newOfferIds now) (fun x => rfl) hlid2]
  intro L' hL' oid hoid
  rw [hlocs] at hL'
  obtain ⟨x, hx, hxy⟩ := mem_updateById _ _ _ _ _ hL'
  by_cases hxid : (x.id == locationId) = true
  · rw [if_pos hxid] at hxy
    have hLid : L'.id = locationId := by
      rw [hxy]
      show x.id = locationId
      simpa using hxid
    have helems : collElems L'.offerIds = insert offerId (collElems location.offerIds) := by
      rw [hxy]
      show collElems newOfferIds = _
      exact collElems_collAdd hadd
    rw [helems] at hoid
    rw [hLid]
    rcases Finset.mem_insert.mp hoid with rfl | hold
    · refine isLinkedB_intro hfo' hfl' ?_ ?_
      · show collContains newOfferIds oid = true
        rw [collContains_eq_mem, collElems_collAdd hadd]
        exact Finset.mem_insert_self oid _
      · show osetContains (some (insert locationId (offer.locationIds.getD ∅))) locationId = true
        simp [osetContains]
    · have hne : oid ≠ offerId := by
        intro hcontra
        exact hasItem_false_not_mem hhas (hcontra ▸ hold)
      have hold' : isLinkedB db oid locationId = true := by
        have := hs location (List.mem_of_find?_eq_some hfl) oid hold
        rwa [hlid] at this
      obtain ⟨o0, l0, ho0, hl0, hc0, hos0⟩ := isLinkedB_elim hold'
      refine isLinkedB_intro ((hfoNe oid hne).trans ho0) hfl' ?_ ?_
      · show collContains newOfferIds oid = true
        rw [collContains_eq_mem, collElems_collAdd hadd]
        exact Finset.mem_insert_of_mem hold
      · have : l0 = location := Option.some.inj (hl0.symm.trans hfl)
        exact hos0
  · rw [if_neg hxid] at hxy
    subst hxy
    have hxid' : L'.id ≠ locationId := by simpa using hxid
    have hdb : isLinkedB db oid L'.id = true := hs L' hx oid hoid
    obtain ⟨o0, l0, ho0, hl0, hc0, hos0⟩ := isLinkedB_elim hdb
    have hl0' : findLocationRec db' L'.id = some l0 := (hflNe L'.id hxid').trans hl0
    by_cases hoe : oid = offerId
    · subst hoe
      have ho0' : o0 = offer := Option.some.inj (ho0.symm.trans hfo)
      subst ho0'
      refine isLinkedB_intro hfo' hl0' hc0 ?_
      show osetContains (some (insert locationId (o0.locationIds.getD ∅))) L'.id = true
      obtain ⟨t, ht, hmem⟩ : ∃ t, o0.locationIds = some t ∧ L'.id ∈ t := by
        cases ho : o0.locationIds with
        | none => rw [ho] at hos0; simp [osetContains] at hos0
        | some u =>
          rw [ho] at hos0
          exact ⟨u, rfl, by simpa [osetContains] using hos0⟩
      rw [ht]
      simp [osetContains, Finset.mem_insert_of_mem hmem]
    · exact isLinkedB_intro ((hfoNe oid hoe).trans ho0) hl0' hc0 hos0

theorem unlink_preserves_offerIdsSound {db : Db} {offerId locationId now : String}
    {fault : Option StoreError} {db' : Db} {ret : OfferRec}
    (hs : offerIdsSound db)
    (h : unlinkFromLocation db offerId locationId now fault = .ok (db', ret)) :
    offerIdsSound db' := by
  obtain ⟨offer, location, newOfferIds, hfo, hfl, hbrand, hhas, hfault, hpos,
    hcont, hdel, hbr, hlocs, hoffs, hret⟩ := unlinkFromLocation_ok_elim h
  have hlid : location.id = locationId := by
    have := List.find?_some hfl
    simpa using this
  obtain ⟨t, ht, htmem⟩ : ∃ t, offer.locationIds = some t ∧ locationId ∈ t := by
    cases ho : offer.locationIds with
    | none => rw [ho] at hcont; simp [osetContains] at hcont
    | some u =>
      rw [ho] at hcont
      exact ⟨u, rfl, by simpa [osetContains] using hcont⟩
  have hfo' : findOfferRec db' offerId = some (unlinkOfferUpd offer locationId now offer) := by
    show (db'.offers).find? (fun o => o.id == offerId) = _
    rw [hoffs, findOffer_updateById_self db.offers offerId
      (unlinkOfferUpd offer locationId now) (fun x => rfl)]
    have : db.offers.find? (fun o => o.id == offerId) = some offer := hfo
    rw [this]; rfl
  have hfl' : findLocationRec db' locationId =
      some (unlinkLocUpd newOfferIds
        (decide (0 < offerIdsFilterLen location.offerIds offerId)) now location) := by
    show (db'.locations).find? (fun l => l.id == locationId) = _
    rw [hlocs, findLocation_updateById_self db.locations locationId
      (unlinkLocUpd newOfferIds
        (decide (0 < offerIdsFilterLen location.offerIds offerId)) now) (fun x => rfl)]
    have : db.locations.find? (fun l => l.id == locationId) = some location := hfl
    rw [this]; rfl
  have hfoNe : ∀ oid, oid ≠ offerId → findOfferRec db' oid = findOfferRec db oid := by
    intro oid hoid
    show (db'.offers).find? (fun o => o.id == oid) = (db.offers).find? (fun o => o.id == oid)
    rw [hoffs, findOffer_updateById_ne db.offers offerId oid
      (unlinkOfferUpd offer locationId now) (fun x => rfl) hoid]
  have hflNe : ∀ lid, lid ≠ locationId → findLocationRec db' lid = findLocationRec db lid := by
    intro lid hlid2
    show (db'.locations).find? (fun l => l.id == lid) = (db.locations).find? (fun l => l.id == lid)
    rw [hlocs, findLocation_updateById_ne db.locations locationId lid
      (unlinkLocUpd newOfferIds
        (decide (0 < offerIdsFilterLen location.offerIds offerId)) now) (fun x => rfl) hlid2]
  intro L' hL' oid hoid
  rw [hlocs] at hL'
  obtain ⟨x, hx, hxy⟩ := mem_updateById _ _ _ _ _ hL'
  by_cases hxid : (x.id == locationId) = true
  · rw [if_pos hxid] at hxy
    have hLid : L'.id = locationId := by
      rw [hxy]
      show x.id = locationId
      simpa using hxid
    have helems : collElems L'.offerIds = (collElems location.offerIds).erase offerId := by
      rw [hxy]
      show collElems newOfferIds = _
      exact collElems_collDelete hdel
    rw [helems] at hoid
    rw [hLid]
    have hne : oid ≠ offerId := (Finset.mem_erase.mp hoid).1
    have hold : oid ∈ collElems location.offerIds := (Finset.mem_erase.mp hoid).2
    have hdb : isLinkedB db oid locationId = true := by
      have := hs location (List.mem_of_find?_eq_some hfl) oid hold
      rwa [hlid] at this
    obtain ⟨o0, l0, ho0, hl0, hc0, hos0⟩ := isLinkedB_elim hdb
    refine isLinkedB_intro ((hfoNe oid hne).trans ho0) hfl' ?_ hos0
    show collContains newOfferIds oid = true
    rw [collContains_eq_mem, collElems_collDelete hdel]
    exact hoid
  · rw [if_neg hxid] at hxy
    subst hxy
    have hxid' : L'.id ≠ locationId := by simpa using hxid
    have hdb : isLinkedB db oid L'.id = true := hs L' hx oid hoid
    obtain ⟨o0, l0, ho0, hl0, hc0, hos0⟩ := isLinkedB_elim hdb
    have hl0' : findLocationRec db' L'.id = some l0 := (hflNe L'.id hxid').trans hl0
    by_cases hoe : oid = offerId
    · subst hoe
      have ho0' : o0 = offer := Option.some.inj (ho0.symm.trans hfo)
      subst ho0'
      refine isLinkedB_intro hfo' hl0' hc0 ?_
      show osetContains (osetDelete o0.locationIds locationId) L'.id = true
      rw [ht] at hos0 ⊢
      have hxmem : L'.id ∈ t := by simpa [osetContains] using hos0
      have hxmem' : L'.id ∈ t.erase locationId := Finset.mem_erase.mpr ⟨hxid', hxmem⟩
      have hne2 : t.erase locationId ≠ ∅ := by
        intro hcontra
        rw [hcontra] at hxmem'
        exact absurd hxmem' (Finset.not_mem_empty _)
      simp only [osetDelete, if_neg hne2]
      simpa [osetContains] using hxmem'
    · exact isLinkedB_intro ((hfoNe oid hoe).trans ho0) hl0' hc0 hos0

theorem locationsRemove_preserves_offerIdsSound {db : Db} {id : String} {db' : Db}
    (hs : offerIdsSound db) (h : locationsRemove db id = .ok db') :
    offerIdsSound db' := by
  have hdb' : db' = { db with locations := db.locations.filter (fun l => l.id != id) } := by
    unfold locationsRemove at h
    split at h
    · exact absurd h (by simp)
    simp only [Except.ok.injEq] at h
    exact h.symm
  subst hdb'
  intro L' hL' oid hoid
  have hL'mem : L' ∈ db.locations ∧ (L'.id != id) = true := by
    simpa using List.mem_filter.mp hL'
  have hdb : isLinkedB db oid L'.id = true := hs L' hL'mem.1 oid hoid
  obtain ⟨o0, l0, ho0, hl0, hc0, hos0⟩ := isLinkedB_elim hdb
  have hne : L'.id ≠ id := by simpa using hL'mem.2
  have hl0' : findLocationRec
      { db with locations := db.locations.filter (fun l => l.id != id) } L'.id = some l0 := by
    show (db.locations.filter (fun l => l.id != id)).find? (fun l => l.id == L'.id) = some l0
    rw [find?_filter_ne (fun l => l.id) db.locations id L'.id hne]
    exact hl0
  exact isLinkedB_intro ho0 hl0' hc0 hos0

/-- Counterexample for C7 as stated: in the concrete store where offer `o1`
is linked to location `L1`, the soundness invariant holds; after
`OffersService.remove("o1")` — which only deletes the offer item — the
location still holds `"o1"` in `offerIds`, so the invariant is violated. -/
theorem C7_counterexample :
    offerIdsSound dbW1 ∧
    offersRemove dbW1 "o1" = .ok { brands := [], offers := [], locations := [lW1] } ∧
    ¬ offerIdsSound { brands := [], offers := [], locations := [lW1] } := by
  refine ⟨?_, by rfl, ?_⟩
  · intro l hl oid hoid
    simp only [dbW1, List.mem_singleton] at hl
    subst hl
    simp only [lW1, lW] at hoid
    have : oid = "o1" := by simpa [collElems] using hoid
    subst this
    decide
  · intro hcontra
    have := hcontra lW1 (by simp) "o1" (by simp [lW1, lW, collElems])
    simp [isLinkedB, findOfferRec, findLocationRec] at this

/-- C7 (amended): the bidirectional-link soundness of `offerIds` — every id
a location holds names an offer linked to it — is preserved by
`linkToLocation`, `unlinkFromLocation` and `LocationsService.remove`; it is
NOT preserved by `OffersService.remove` (see the counterexample), because
offer deletion performs no cascade over `location.offerIds`. -/
theorem C7_amended_offerIds_soundness :
    (∀ (db : Db) (offerId locationId now : String) (fault : Option StoreError)
        (db' : Db) (ret : OfferRec), offerIdsSound db →
      linkToLocation db offerId locationId now fault = .ok (db', ret) →
      offerIdsSound db') ∧
    (∀ (db : Db) (offerId locationId now : String) (fault : Option StoreError)
        (db' : Db) (ret : OfferRec), offerIdsSound db →
      unlinkFromLocation db offerId locationId now fault = .ok (db', ret) →
      offerIdsSound db') ∧
    (∀ (db : Db) (id : String) (db' : Db), offerIdsSound db →
      locationsRemove db id = .ok db' → offerIdsSound db') :=
  ⟨fun _ _ _ _ _ _ _ hs h => link_preserves_offerIdsSound hs h,
   fun _ _ _ _ _ _ _ hs h => unlink_preserves_offerIdsSound hs h,
   fun _ _ _ hs h => locationsRemove_preserves_offerIdsSound hs h⟩

/-- Witness for the amended C7: the soundness invariant holds on the empty
store `dbW` and is kept by the concrete link call. -/
theorem C7_amended_offerIds_soundness_witness :
    offerIdsSound dbW ∧
    linkToLocation dbW "o1" "L1" "t1" none = .ok (dbW1, oW1) ∧
    offerIdsSound dbW1 :=
  ⟨by decide, by rfl,
    C7_amended_offerIds_soundness.1 dbW "o1" "L1" "t1" none dbW1 oW1
      (by decide) (by rfl)⟩

end Fidel